import Mathlib

set_option maxHeartbeats 1000000
set_option maxRecDepth 100000

/-! Shallow embedding of the search and ranking engine in src/SEARCHING.py
    (class MedicalAgent).  Python strings are Lean Strings, pandas DataFrames
    are a column-name list together with an ordered list of rows, and float
    scores/distances are rationals.  The three rapidfuzz process.extract
    calls (strategies 1-3) are external library calls and are modelled as
    oracle parameters; everything else is translated from the source. -/

/-- Whitespace characters recognised by Python str.split() (ASCII subset). -/
def pyIsSpace (c : Char) : Bool :=
  c = ' ' || c = '\t' || c = '\n' || c = '\r' || c = '\x0b' || c = '\x0c'

/-- ASCII lowercase of one character (Python str.lower on the ASCII data in play). -/
def asciiLowerChar (c : Char) : Char :=
  if 'A' ≤ c ∧ c ≤ 'Z' then Char.ofNat (c.toNat + 32) else c

/-- Python str.lower (ASCII). -/
def pyLower (s : String) : String := String.mk (s.data.map asciiLowerChar)

/-- Helper for pySplit: accumulate the current word (reversed) while scanning. -/
def splitWsAux : List Char → List Char → List String
  | [], acc => if acc.isEmpty then [] else [String.mk acc.reverse]
  | c :: cs, acc =>
    if pyIsSpace c then
      if acc.isEmpty then splitWsAux cs [] else String.mk acc.reverse :: splitWsAux cs []
    else splitWsAux cs (c :: acc)

/-- Python str.split() with no argument: split on whitespace runs, dropping empties. -/
def pySplit (s : String) : List String := splitWsAux s.data []

def listIsPrefixOf : List Char → List Char → Bool
  | [], _ => true
  | _ :: _, [] => false
  | a :: as, b :: bs => a = b && listIsPrefixOf as bs

def listIsInfixOf (n : List Char) : List Char → Bool
  | [] => n.isEmpty
  | c :: cs => listIsPrefixOf n (c :: cs) || listIsInfixOf n cs

/-- Python `needle in hay` on strings. -/
def pyContains (hay needle : String) : Bool := listIsInfixOf needle.data hay.data

/-- One cell of pandas Series.str.contains(pat, case=False): case-insensitive
    substring test (the patterns used by the program have no regex metacharacters). -/
def icontains (cell pat : String) : Bool := pyContains (pyLower cell) (pyLower pat)

def pyStartsWith (s pre : String) : Bool := listIsPrefixOf pre.data s.data

/-- Python str.isdigit for ASCII strings: nonempty and all decimal digits. -/
def pyIsDigitStr (s : String) : Bool := !s.data.isEmpty && s.data.all Char.isDigit

def digitsToNat (l : List Char) : Nat := l.foldl (fun a c => a * 10 + (c.toNat - 48)) 0

/-- A dataset row: named string cells plus the optional `_distance` metadata
    attached by the postal-code search. -/
structure Row where
  cells : List (String × String)
  dist : Option ℚ
deriving DecidableEq

/-- Python `row.get(col, '')`: cell value, or the empty string when absent. -/
def Row.getD (r : Row) (c : String) : String :=
  match r.cells.find? (fun p => p.1 == c) with
  | some p => p.2
  | none => ""

/-- Python assignment clinic_data['_distance'] = distance on a row copy. -/
def Row.withDist (r : Row) (d : ℚ) : Row := ⟨r.cells, some d⟩

/-- A pandas DataFrame: its column names and its rows in order. -/
structure DF where
  cols : List String
  rows : List Row
deriving DecidableEq

/-- abs of the difference of two naturals (Python abs(a - b) on ints). -/
def natAbsDiff (a b : Nat) : Nat := max a b - min a b

/-- The fixed sector-adjacency table `area_distances` of
    MedicalAgent.calculate_postal_distance, keyed by sorted sector pairs. -/
def area_distances : List ((Nat × Nat) × Nat) :=
  [((1, 2), 1), ((1, 3), 2), ((1, 4), 3), ((1, 5), 4), ((1, 6), 5),
   ((1, 7), 6), ((1, 8), 7), ((1, 9), 8), ((1, 10), 9),
   ((75, 76), 1), ((75, 77), 2), ((75, 78), 3), ((75, 79), 4),
   ((79, 80), 1), ((80, 81), 1), ((81, 82), 1),
   ((10, 11), 1), ((11, 12), 1), ((12, 13), 1), ((13, 14), 1),
   ((14, 15), 1), ((15, 16), 1),
   ((46, 47), 1), ((47, 48), 1), ((48, 49), 1), ((49, 50), 1),
   ((50, 51), 1), ((51, 52), 1),
   ((60, 61), 1), ((61, 62), 1), ((62, 63), 1), ((63, 64), 1),
   ((64, 65), 1), ((65, 66), 1), ((66, 67), 1), ((67, 68), 1),
   ((68, 69), 1),
   ((53, 54), 1), ((54, 55), 1), ((55, 56), 1), ((56, 57), 1),
   ((57, 58), 1), ((58, 59), 1)]

/-- MedicalAgent.calculate_postal_distance: proxy distance between two
    6-digit Singapore postal codes. -/
def calculate_postal_distance (postal1 postal2 : Nat) : ℚ :=
  let area1 := postal1 / 10000
  let area2 := postal2 / 10000
  if area1 = area2 then (natAbsDiff postal1 postal2 : ℚ)
  else
    let areaPair := (min area1 area2, max area1 area2)
    let baseDistance : ℚ :=
      match area_distances.find? (fun e => e.1 == areaPair) with
      | some e => (e.2 : ℚ) * 10000
      | none => (natAbsDiff area1 area2 : ℚ) * 10000
    let subDistance : ℚ := (natAbsDiff (postal1 % 10000) (postal2 % 10000) : ℚ) / 100
    baseDistance + subDistance

inductive Intent
  | find_doctor
  | find_clinic
deriving DecidableEq

/-- The structured query plan produced by the intent-extraction step; empty
    strings model absent/empty filter values (both are falsy in Python). -/
structure Plan where
  intent : Intent
  keywords : String
  fSpecialty : String
  fLanguages : String
  fArea : String
deriving DecidableEq

def maskOr (m1 m2 : List Bool) : List Bool := m1.zipWith (· || ·) m2

def maskFilter (rows : List Row) (m : List Bool) : List Row :=
  (rows.zip m).filterMap (fun p => if p.2 then some p.1 else none)

def colContainsMask (rows : List Row) (col pat : String) : List Bool :=
  rows.map (fun r => icontains (r.getD col) pat)

def falseMask (rows : List Row) : List Bool := rows.map (fun _ => false)

/-- The fixed specialty_corrections table. -/
def specialty_corrections : List (String × String) :=
  [("General Practitioner", "General Medicine"),
   ("GP", "General Medicine"),
   ("Family Medicine", "Family & Community Medicine"),
   ("Paediatric", "Family & Community Medicine"),
   ("Pediatric", "Family & Community Medicine"),
   ("ENT", "Otolaryngology"),
   ("Orthopaedic", "Orthopaedic Surgery"),
   ("Orthopedic", "Orthopaedic Surgery")]

def applyCorrection (s : String) : String :=
  match specialty_corrections.find? (fun p => p.1 == s) with
  | some p => p.2
  | none => s

def fallback_specialties : List String :=
  ["Family & Community Medicine", "General Medicine", "Emergency Medicine", "Internal Medicine"]

def search_columns : List String := ["Specialty", "Designation", "Services"]

/-- specialty_filter.lower() in ['paediatric', 'pediatric']. -/
def pedCase (f : String) : Bool := pyLower f == "paediatric" || pyLower f == "pediatric"

/-- The pediatric fallback mask: ORs Specialty-column matches of the four
    fallback specialties (the loop guards on the Specialty column only). -/
def pediatricFallbackMask (df : DF) : List Bool :=
  fallback_specialties.foldl
    (fun acc fb =>
      if "Specialty" ∈ df.cols then maskOr acc (colContainsMask df.rows "Specialty" fb) else acc)
    (falseMask df.rows)

/-- OR of case-insensitive substring matches of pat over the present columns
    among Specialty, Designation, Services. -/
def threeColMask (df : DF) (pat : String) : List Bool :=
  search_columns.foldl
    (fun acc col => if col ∈ df.cols then maskOr acc (colContainsMask df.rows col pat) else acc)
    (falseMask df.rows)

/-- The specialty filter stage.  Its input plays both the filtered_df and the
    target_df role (the stage runs first, so they coincide in the source). -/
def specialtyStage (rawFilter : String) (df : DF) : DF :=
  let f := applyCorrection rawFilter
  if pedCase f then
    let fdf : DF := ⟨df.cols, maskFilter df.rows (pediatricFallbackMask df)⟩
    if fdf.rows.isEmpty then ⟨df.cols, maskFilter df.rows (threeColMask df f)⟩ else fdf
  else ⟨df.cols, maskFilter df.rows (threeColMask df f)⟩

def langNormalize (lang : String) : String :=
  if pyLower lang == "chinese" || pyLower lang == "mandarin" then "Mandarin" else lang

def languageStage (langFilter : String) (df : DF) : DF :=
  if "Languages" ∈ df.cols then
    ⟨df.cols, df.rows.filter (fun r => icontains (r.getD "Languages") (langNormalize langFilter))⟩
  else df

/-- Attempt of the pattern: literal "Singapore", one or more whitespace
    characters, then six digits, anchored at the head of l. -/
def tryPostalAt (l : List Char) : Option Nat :=
  if listIsPrefixOf "Singapore".data l then
    let rest := l.drop 9
    let ws := rest.takeWhile pyIsSpace
    let digs := (rest.dropWhile pyIsSpace).take 6
    if ws.length > 0 ∧ digs.length = 6 ∧ digs.all Char.isDigit then some (digitsToNat digs)
    else none
  else none

def extractPostalAux : List Char → Option Nat
  | [] => none
  | c :: cs =>
    match tryPostalAt (c :: cs) with
    | some v => some v
    | none => extractPostalAux cs

/-- The leftmost match of the address regex (literal city marker, whitespace,
    six digits) as in the source's re.search call. -/
def extractPostal (address : String) : Option Nat := extractPostalAux address.data

/-- Sort key of the postal branch: ascending attached _distance. -/
def distLe (a b : Row) : Bool := decide (a.dist.getD 0 ≤ b.dist.getD 0)

def postalCandidates (q : Nat) (rows : List Row) : List Row :=
  rows.filterMap (fun r =>
    (extractPostal (r.getD "Address")).map (fun c => r.withDist (calculate_postal_distance q c)))

/-- The postal-code branch of the clinic location filter: keep rows with an
    extractable code, attach _distance, sort ascending, keep the closest 20;
    an empty candidate list yields the empty DataFrame. -/
def postalStage (q : Nat) (df : DF) : DF :=
  let cds := postalCandidates q df.rows
  if cds.isEmpty then ⟨[], []⟩
  else ⟨if "_distance" ∈ df.cols then df.cols else df.cols ++ ["_distance"],
        (cds.mergeSort distLe).take 20⟩

/-- The fixed area-adjacency table nearby_areas. -/
def nearby_areas : List (String × List String) :=
  [("bedok", ["tampines", "pasir ris", "changi"]),
   ("tampines", ["bedok", "pasir ris", "sengkang"]),
   ("yishun", ["woodlands", "sembawang", "ang mo kio"]),
   ("woodlands", ["yishun", "sembawang", "choa chu kang"]),
   ("jurong west", ["jurong east", "choa chu kang", "bukit batok"]),
   ("sengkang", ["punggol", "tampines", "serangoon"]),
   ("punggol", ["sengkang", "tampines", "serangoon"]),
   ("ang mo kio", ["yishun", "serangoon", "bishan"]),
   ("serangoon", ["ang mo kio", "sengkang", "bishan"])]

/-- OR of the Area-column and Address-column substring masks. -/
def directMask (loc : String) (df : DF) : List Bool :=
  let m1 :=
    if "Area" ∈ df.cols then maskOr (falseMask df.rows) (colContainsMask df.rows "Area" loc)
    else falseMask df.rows
  if "Address" ∈ df.cols then maskOr m1 (colContainsMask df.rows "Address" loc) else m1

/-- The area-name clinic branch: direct Area/Address matching, with the
    adjacency fallback when no direct match exists. -/
def areaNameClinicStage (loc : String) (df : DF) : DF :=
  let m2 := directMask loc df
  let m3 :=
    if m2.any id then m2
    else
      match nearby_areas.find? (fun p => p.1 == pyLower loc) with
      | some p =>
        p.2.foldl
          (fun acc nb =>
            if "Area" ∈ df.cols then maskOr acc (colContainsMask df.rows "Area" nb) else acc)
          m2
      | none => m2
  ⟨df.cols, maskFilter df.rows m3⟩

/-- The doctor location filter: single substring match on Area if present,
    else Address. -/
def doctorLocationStage (loc : String) (df : DF) : DF :=
  let col := if "Area" ∈ df.cols then "Area" else "Address"
  if col ∈ df.cols then ⟨df.cols, df.rows.filter (fun r => icontains (r.getD col) loc)⟩ else df

def locationStage (loc : String) (intent : Intent) (df : DF) : DF :=
  match intent with
  | Intent.find_clinic =>
    if pyIsDigitStr loc && loc.length == 6 then postalStage (digitsToNat loc.data) df
    else areaNameClinicStage loc df
  | Intent.find_doctor => doctorLocationStage loc df

/-- The structured filter pipeline of MedicalAgent.search: specialty,
    language, then location, each applied when its filter value is truthy. -/
def filterPipeline (p : Plan) (df : DF) : DF :=
  let d1 := if p.fSpecialty ≠ "" then specialtyStage p.fSpecialty df else df
  let d2 := if p.fLanguages ≠ "" then languageStage p.fLanguages d1 else d1
  if p.fArea ≠ "" then locationStage p.fArea p.intent d2 else d2

/-- loc_lower in str(row.get('Area', '')).lower(). -/
def areaHit (loc : String) (r : Row) : Bool :=
  pyContains (pyLower (r.getD "Area")) (pyLower loc)

/-- loc_lower in str(row.get('Address', '')).lower(). -/
def addrHit (loc : String) (r : Row) : Bool :=
  pyContains (pyLower (r.getD "Address")) (pyLower loc)

/-- The clinic result assembler: one pass over the filtered rows partitioning
    into exact-area / address / nearby, then tier caps 10, 5, 5. -/
def clinicAssemble (loc : String) (rows : List Row) : List Row :=
  let t := rows.foldl
    (fun (acc : List Row × List Row × List Row) r =>
      if areaHit loc r then (acc.1 ++ [r], acc.2.1, acc.2.2)
      else if addrHit loc r then (acc.1, acc.2.1 ++ [r], acc.2.2)
      else (acc.1, acc.2.1, acc.2.2 ++ [r]))
    ([], [], [])
  t.1.take 10 ++ t.2.1.take 5 ++ t.2.2.take 5

def lcsLen : List Char → List Char → Nat
  | [], _ => 0
  | _ :: _, [] => 0
  | a :: as, b :: bs =>
    if a = b then lcsLen as bs + 1
    else max (lcsLen as (b :: bs)) (lcsLen (a :: as) bs)

/-- rapidfuzz fuzz.ratio: normalized indel similarity as a percentage,
    which equals 200 * lcs / (len1 + len2), and 100 for two empty strings. -/
def fuzzRatio (s1 s2 : String) : ℚ :=
  if s1.length + s2.length = 0 then 100
  else 200 * (lcsLen s1.data s2.data : ℚ) / ((s1.length + s2.length : Nat) : ℚ)

def listMinD : List ℚ → ℚ
  | [] => 0
  | x :: xs => xs.foldl min x

/-- Strategy 4 of the fuzzy search: the custom per-word partial matcher
    (multi_word_matches loop).  Words shorter than 3 characters contribute a
    best score of 0; a candidate qualifies when the minimum per-word best
    score exceeds 35, scored by the mean of the per-word best scores. -/
def multiWordMatches (keywords : String) (names : List String) : List (String × ℚ × Nat) :=
  let keywordsWords := pySplit (pyLower keywords)
  names.enum.filterMap (fun e =>
    let nameWords := pySplit (pyLower e.2)
    let wordMatchScores : List ℚ := keywordsWords.map (fun kw =>
      nameWords.foldl (fun best nw =>
        if kw.length ≥ 3 then
          if pyContains nw kw || pyContains kw nw then max best 80
          else max best (fuzzRatio kw nw)
        else best) 0)
    if wordMatchScores.length > 0 ∧ listMinD wordMatchScores > 35 then
      some (e.2, wordMatchScores.sum / (wordMatchScores.length : ℚ), e.1)
    else none)

/-- One fused entry: weighted score, source row index, raw score. -/
structure Fused where
  weighted : ℚ
  idx : Nat
  raw : ℚ
deriving DecidableEq

def applyWeight (strategyName : String) (score : ℚ) : ℚ :=
  if strategyName == "multi_word" && decide (score > 50) then score * (13 / 10)
  else if strategyName == "partial" && decide (score > 80) then score * (12 / 10)
  else if strategyName == "token_set" && decide (score > 90) then score * (11 / 10)
  else score

/-- Python dict assignment all_matches[name] = v guarded by
    `name not in all_matches or weighted > existing`: first-insertion order
    of keys is preserved, the value is replaced in place. -/
def updEntry : List (String × Fused) → String → Fused → List (String × Fused)
  | [], n, v => [(n, v)]
  | (k, old) :: rest, n, v =>
    if k == n then (if v.weighted > old.weighted then (k, v) :: rest else (k, old) :: rest)
    else (k, old) :: updEntry rest n v

def fuseStep (strategyName : String) (d : List (String × Fused))
    (ms : List (String × ℚ × Nat)) : List (String × Fused) :=
  ms.foldl (fun d m =>
    if m.2.1 > 25 then updEntry d m.1 ⟨applyWeight strategyName m.2.1, m.2.2, m.2.1⟩ else d) d

/-- The all_matches fusion dict after the four strategy passes, in the
    source's strategy order. -/
def fuseMatches (m1 m2 m3 m4 : List (String × ℚ × Nat)) : List (String × Fused) :=
  fuseStep "multi_word" (fuseStep "token_sort" (fuseStep "partial" (fuseStep "token_set" [] m1) m2) m3) m4

/-- sorted(all_matches.items(), key=weighted, reverse=True): stable
    descending order by weighted score. -/
def sortFused (d : List (String × Fused)) : List (String × Fused) :=
  d.mergeSort (fun a b => decide (b.2.weighted ≤ a.2.weighted))

/-- Exact-match predicate: some whitespace-delimited word of the candidate
    name equals the keyword or starts with it, case-insensitive. -/
def isExactName (keywords name : String) : Bool :=
  (pySplit (pyLower name)).any (fun part =>
    pyLower keywords == part || pyStartsWith part (pyLower keywords))

def exactOf (keywords : String) (sortedMs : List (String × Fused)) : List (String × Fused) :=
  sortedMs.filter (fun e => isExactName keywords e.1)

def fuzzyOf (keywords : String) (sortedMs : List (String × Fused)) : List (String × Fused) :=
  sortedMs.filter (fun e => !isExactName keywords e.1)

/-- final_matches: the whole exact tier topped up with at most three fuzzy
    entries scoring above 60, unless the exact tier already has ≥ 3 entries
    in which case only its top 5 are kept. -/
def finalMatches (keywords : String) (sortedMs : List (String × Fused)) : List (String × Fused) :=
  let ex := exactOf keywords sortedMs
  let fz := fuzzyOf keywords sortedMs
  if ex.length ≥ 3 then ex.take 5
  else ex ++ (fz.filter (fun e => e.2.weighted > 60)).take 3

/-- filtered_df.iloc[idx]: positional row access, IndexError modelled as error. -/
def ilocE (rows : List Row) (i : Nat) : Except Unit Row :=
  match rows.get? i with
  | some r => Except.ok r
  | none => Except.error ()

def ilocAll (rows : List Row) : List (String × Fused) → Except Unit (List Row)
  | [] => Except.ok []
  | e :: es =>
    match ilocE rows e.2.idx with
    | Except.error u => Except.error u
    | Except.ok r =>
      match ilocAll rows es with
      | Except.error u => Except.error u
      | Except.ok rest => Except.ok (r :: rest)

/-- The absolute fallback: linear scan for plain case-insensitive containment
    of the keyword in the name, first 10 hits in dataset order. -/
def containFallback (keywords : String) (rows : List Row) : List Row :=
  (rows.filter (fun r => pyContains (pyLower (r.getD "Name")) (pyLower keywords))).take 10

/-- filtered_df[c].tolist(): KeyError (modelled as error) when the column is
    absent; pandas guarantees a cell for every column of the frame. -/
def dfColumn (df : DF) (c : String) : Except Unit (List String) :=
  if c ∈ df.cols then Except.ok (df.rows.map (fun r => r.getD c)) else Except.error ()

/-- The doctor-name fuzzy search (keyword length > 1 path of
    MedicalAgent.search).  ex1, ex2, ex3 are oracles for the three rapidfuzz
    process.extract calls (token_set_ratio, partial_ratio, token_sort_ratio,
    each with limit 20 and no processor). -/
def fuzzySearch (ex1 ex2 ex3 : String → List String → List (String × ℚ × Nat))
    (keywords : String) (fdf : DF) : Except Unit (List Row) :=
  match dfColumn fdf "Name" with
  | Except.error u => Except.error u
  | Except.ok names =>
    let m4 := multiWordMatches keywords names
    let sortedMs :=
      sortFused (fuseMatches (ex1 keywords names) (ex2 keywords names) (ex3 keywords names) m4)
    let final := finalMatches keywords sortedMs
    match ilocAll fdf.rows (final.take 5) with
    | Except.error u => Except.error u
    | Except.ok results =>
      if results.isEmpty then Except.ok (containFallback keywords fdf.rows)
      else Except.ok results

/-- MedicalAgent.search after the think() step: dataset selection, the
    structured filter pipeline, then ranking/assembly.  An error models an
    uncaught Python exception escaping the entry point. -/
def search (df_c df_d : DF) (plan : Option Plan)
    (ex1 ex2 ex3 : String → List String → List (String × ℚ × Nat)) :
    Except Unit (List Row × Option Plan) :=
  match plan with
  | none => Except.ok ([], none)
  | some p =>
    let target := if p.intent = Intent.find_clinic then df_c else df_d
    let fdf := filterPipeline p target
    if fdf.rows.isEmpty then Except.ok ([], some p)
    else if p.intent = Intent.find_clinic then
      if p.fArea ≠ "" then Except.ok (clinicAssemble p.fArea fdf.rows, some p)
      else Except.ok (fdf.rows.take 15, some p)
    else if p.keywords ≠ "" ∧ p.keywords.length > 1 then
      (fuzzySearch ex1 ex2 ex3 p.keywords fdf).map (fun rs => (rs, some p))
    else
      let limit := if p.intent = Intent.find_doctor then 10 else 15
      Except.ok (fdf.rows.take limit, some p)

/-- Modelled from the spec's words for comparison (claim C1): the pediatric
    fallback set OR-matched as case-insensitive substrings across all three
    columns Specialty, Designation and Services of the current working set. -/
def specClaimedPediatricRows (df : DF) : List Row :=
  df.rows.filter (fun r =>
    fallback_specialties.any (fun fb =>
      search_columns.any (fun col => decide (col ∈ df.cols) && icontains (r.getD col) fb)))

/-- Row-level form of the pediatric fallback mask. -/
def pedP (cols : List String) (r : Row) : Bool :=
  fallback_specialties.foldl
    (fun b fb => if "Specialty" ∈ cols then b || icontains (r.getD "Specialty") fb else b) false

/-- Row-level form of the three-column specialty mask. -/
def threeP (cols : List String) (pat : String) (r : Row) : Bool :=
  search_columns.foldl
    (fun b col => if col ∈ cols then b || icontains (r.getD col) pat else b) false

/-- Row-level form of the direct Area/Address location mask. -/
def directP (cols : List String) (loc : String) (r : Row) : Bool :=
  let b1 := if "Area" ∈ cols then false || icontains (r.getD "Area") loc else false
  if "Address" ∈ cols then b1 || icontains (r.getD "Address") loc else b1

/-- Row-level form of the adjacency-fallback mask (folded on top of the
    direct mask, as in the source). -/
def adjP (cols : List String) (ns : List String) (loc : String) (r : Row) : Bool :=
  ns.foldl
    (fun b nb => if "Area" ∈ cols then b || icontains (r.getD "Area") nb else b)
    (directP cols loc r)

/-- Concrete data for the claim C1 counterexample: the fallback specialty
    appears in Designation but not in Specialty. -/
def rowC1 : Row :=
  ⟨[("Specialty", "Orthopaedic Surgery"), ("Designation", "General Medicine"), ("Services", "")],
   none⟩

def dfC1 : DF := ⟨["Specialty", "Designation", "Services"], [rowC1]⟩

/-- Concrete data for the claim C1 amended-theorem witness. -/
def rowC1w : Row := ⟨[("Specialty", "General Medicine"), ("Designation", ""), ("Services", "")], none⟩

def dfC1w : DF := ⟨["Specialty", "Designation", "Services"], [rowC1w]⟩

/-- Concrete data for the claim C6 witness: one clinic in Tampines, queried
    with the area filter Bedok. -/
def rowC6 : Row :=
  ⟨[("Name", "Tampines Clinic"), ("Address", "1 Tampines St 1, Singapore"), ("Area", "Tampines")],
   none⟩

def dfC6 : DF := ⟨["Name", "Address", "Area"], [rowC6]⟩

/-- Concrete data for the claim C4 witness: the spec's scenario 2 addresses. -/
def rowC4a : Row :=
  ⟨[("Name", "Clinic A"), ("Address", "Blk 1 Jurong West, Singapore 640526"), ("Area", "Jurong West")],
   none⟩

def rowC4b : Row :=
  ⟨[("Name", "Clinic B"), ("Address", "Blk 2 Jurong West, Singapore 641651"), ("Area", "Jurong West")],
   none⟩

def dfC4 : DF := ⟨["Name", "Address", "Area"], [rowC4a, rowC4b]⟩

/-- A trivial strategy oracle (used only to instantiate witnesses whose
    outcome does not depend on the oracle's value). -/
def exNone : String → List String → List (String × ℚ × Nat) := fun _ _ => []

/-- Concrete data for the claim C2 counterexample: candidate names written
    in upper case so that they share no character, case-sensitively, with
    the lower-case keyword "ab"; their lowercased forms all contain "ab". -/
def namesC2 : List String := ["AB ONE", "AB TWO", "AB THREE", "XAB1", "XAB2", "XAB3"]

def dfC2 : DF := ⟨["Name"], namesC2.map (fun n => ⟨[("Name", n)], none⟩)⟩

/-- Oracle recording rapidfuzz's output on the C2 counterexample input: the
    keyword "ab" shares no character (case-sensitively, and
    process.extract applies no processor since rapidfuzz 2.x) with any
    candidate, so token_set_ratio, partial_ratio and token_sort_ratio all
    score 0 for every candidate; process.extract with limit 20 and no score
    cutoff returns all six candidates with score 0 in dataset order. -/
def exZeroC2 : String → List String → List (String × ℚ × Nat) :=
  fun _ names => names.enum.map (fun e => (e.2, 0, e.1))

/-- An oracle whose reported indices stay within the candidate list. -/
def ValidOracle (ex : String → List String → List (String × ℚ × Nat)) : Prop :=
  ∀ kw names e, e ∈ ex kw names → e.2.2 < names.length

/-- Concrete data for claim C7: a doctor dataset lacking the Name column. -/
def dfNoName : DF := ⟨["Specialty"], [⟨[("Specialty", "Cardiology")], none⟩]⟩

/-- A doctor dataset with a Name column (C7 witness). -/
def dfDoctors : DF := ⟨["Name"], [⟨[("Name", "Tan Wei")], none⟩]⟩

/-- A doctor-name query plan with keyword "low". -/
def pC7 : Plan := ⟨Intent.find_doctor, "low", "", "", ""⟩

/-- Every row of rows2 has the cell data of some row of rows1 (the filter
    stages subset rows, and the postal stage only rewrites _distance). -/
def CellsFrom (rows2 rows1 : List Row) : Prop :=
  ∀ r ∈ rows2, ∃ r0 ∈ rows1, r.cells = r0.cells

/-- The column names read by the filter pipeline's predicates. -/
def relCols : List String :=
  ["Specialty", "Designation", "Services", "Languages", "Area", "Address"]

/-- Two column lists agreeing on every pipeline-relevant column. -/
def ColsCompat (c1 c2 : List String) : Prop := ∀ n ∈ relCols, (n ∈ c1 ↔ n ∈ c2)

theorem calculate_postal_distance_comm (p1 p2 : Nat) :
    calculate_postal_distance p1 p2 = calculate_postal_distance p2 p1 := by
  unfold calculate_postal_distance natAbsDiff
  by_cases h : p1 / 10000 = p2 / 10000
  · simp only [h, if_pos rfl, Nat.max_comm, Nat.min_comm]
  · have h2 : ¬ p2 / 10000 = p1 / 10000 := fun e => h e.symm
    simp only [if_neg h, if_neg h2, Nat.max_comm, Nat.min_comm]

/-- C3: the postal distance heuristic is symmetric on all 6-digit pairs. -/
theorem postal_distance_symmetric (a b : Nat)
    (ha1 : 100000 ≤ a) (ha2 : a ≤ 999999) (hb1 : 100000 ≤ b) (hb2 : b ≤ 999999) :
    calculate_postal_distance a b = calculate_postal_distance b a :=
  calculate_postal_distance_comm a b

/-- Witness for C3 at the spec's own example pair (640526, 640652); both
    orders also evaluate to 126, the same-sector raw difference. -/
theorem postal_distance_symmetric_w :
    calculate_postal_distance 640526 640652 = calculate_postal_distance 640652 640526 ∧
    calculate_postal_distance 640526 640652 = 126 :=
  ⟨postal_distance_symmetric 640526 640652 (by decide) (by decide) (by decide) (by decide),
   by decide⟩

theorem maskFilter_map (rows : List Row) (f : Row → Bool) :
    maskFilter rows (rows.map f) = rows.filter f := by
  induction rows with
  | nil => rfl
  | cons r rs ih =>
    simp only [maskFilter, List.map_cons, List.zip_cons_cons, List.filterMap_cons] at *
    cases h : f r <;> simp [h, ih, List.filter_cons]

theorem maskOr_map (rows : List Row) (f g : Row → Bool) :
    maskOr (rows.map f) (rows.map g) = rows.map (fun r => f r || g r) := by
  induction rows with
  | nil => rfl
  | cons r rs ih => simp only [maskOr, List.map_cons, List.zipWith_cons_cons] at *; simp [ih]

theorem foldl_maskOr_contains (ns : List String) (rows : List Row) (col : String)
    (cond : Prop) [Decidable cond] (f0 : Row → Bool) :
    ns.foldl (fun acc nb => if cond then maskOr acc (colContainsMask rows col nb) else acc)
        (rows.map f0)
      = rows.map (fun r =>
          ns.foldl (fun b nb => if cond then b || icontains (r.getD col) nb else b) (f0 r)) := by
  induction ns generalizing f0 with
  | nil => rfl
  | cons n ns ih =>
    by_cases hc : cond
    · simp only [List.foldl_cons, hc, if_true]
      rw [show colContainsMask rows col n = rows.map (fun r => icontains (r.getD col) n) from rfl,
        maskOr_map]
      have h2 := ih (fun r => f0 r || icontains (r.getD col) n)
      simp only [hc, if_true] at h2
      exact h2
    · simp only [List.foldl_cons, hc, if_false]
      have h2 := ih f0
      simp only [hc, if_false] at h2
      exact h2

theorem foldl_or_any (g : String → Bool) (ns : List String) (b0 : Bool) :
    ns.foldl (fun b x => b || g x) b0 = (b0 || ns.any g) := by
  induction ns generalizing b0 with
  | nil => simp
  | cons n ns ih => simp [List.foldl_cons, ih, Bool.or_assoc]

theorem pediatricFallbackMask_eq (df : DF) :
    pediatricFallbackMask df = df.rows.map (pedP df.cols) := by
  unfold pediatricFallbackMask pedP falseMask
  exact foldl_maskOr_contains fallback_specialties df.rows "Specialty" ("Specialty" ∈ df.cols) _

theorem threeColMask_eq (df : DF) (pat : String) :
    threeColMask df pat = df.rows.map (threeP df.cols pat) := by
  unfold threeColMask threeP falseMask search_columns
  by_cases h1 : "Specialty" ∈ df.cols <;> by_cases h2 : "Designation" ∈ df.cols <;>
    by_cases h3 : "Services" ∈ df.cols <;>
    simp only [List.foldl_cons, List.foldl_nil, if_pos, if_neg, h1, h2, h3, if_true, if_false,
      maskOr_map, colContainsMask]

theorem directMask_eq (loc : String) (df : DF) :
    directMask loc df = df.rows.map (directP df.cols loc) := by
  unfold directMask directP falseMask
  by_cases h1 : "Area" ∈ df.cols <;> by_cases h2 : "Address" ∈ df.cols <;>
    simp only [h1, h2, if_true, if_false, maskOr_map, colContainsMask]

theorem specialtyStage_eq (f : String) (df : DF) :
    specialtyStage f df =
      (if pedCase (applyCorrection f) then
        (if (df.rows.filter (pedP df.cols)).isEmpty then
           (⟨df.cols, df.rows.filter (threeP df.cols (applyCorrection f))⟩ : DF)
         else ⟨df.cols, df.rows.filter (pedP df.cols)⟩)
      else ⟨df.cols, df.rows.filter (threeP df.cols (applyCorrection f))⟩) := by
  simp only [specialtyStage]
  rw [pediatricFallbackMask_eq, maskFilter_map, threeColMask_eq, maskFilter_map]

theorem any_map_id (rows : List Row) (f : Row → Bool) :
    (rows.map f).any id = rows.any f := by
  induction rows with
  | nil => rfl
  | cons r rs ih => simp only [List.map_cons, List.any_cons, ih, id]

theorem areaNameClinicStage_eq (loc : String) (df : DF) :
    areaNameClinicStage loc df =
      (if df.rows.any (directP df.cols loc) then
        (⟨df.cols, df.rows.filter (directP df.cols loc)⟩ : DF)
      else
        match nearby_areas.find? (fun p => p.1 == pyLower loc) with
        | some p => ⟨df.cols, df.rows.filter (adjP df.cols p.2 loc)⟩
        | none => ⟨df.cols, df.rows.filter (directP df.cols loc)⟩) := by
  unfold adjP
  simp only [areaNameClinicStage]
  rw [directMask_eq, any_map_id]
  by_cases h : df.rows.any (directP df.cols loc)
  · rw [if_pos h, if_pos h, maskFilter_map]
  · rw [if_neg h, if_neg h]
    cases hf : nearby_areas.find? (fun p => p.1 == pyLower loc) with
    | none => dsimp only; rw [maskFilter_map]
    | some p =>
      dsimp only
      rw [foldl_maskOr_contains p.2 df.rows "Area" ("Area" ∈ df.cols) (directP df.cols loc),
        maskFilter_map]

theorem pedP_any (cols : List String) (r : Row) :
    pedP cols r =
      (decide ("Specialty" ∈ cols) &&
        fallback_specialties.any (fun fb => icontains (r.getD "Specialty") fb)) := by
  by_cases h : "Specialty" ∈ cols <;>
    simp [pedP, fallback_specialties, h, List.foldl_cons, List.foldl_nil, Bool.or_assoc]

theorem threeP_any (cols : List String) (pat : String) (r : Row) :
    threeP cols pat r =
      search_columns.any (fun col => decide (col ∈ cols) && icontains (r.getD col) pat) := by
  by_cases h1 : "Specialty" ∈ cols <;> by_cases h2 : "Designation" ∈ cols <;>
    by_cases h3 : "Services" ∈ cols <;>
    simp [threeP, search_columns, h1, h2, h3, List.foldl_cons, List.foldl_nil, Bool.or_assoc]

/-- C1 counterexample: the specialty filter "paediatric" reaches the
    pediatric branch unchanged (the correction table only has the
    capitalised keys), the fallback loop matches the Specialty column only,
    so a row carrying "General Medicine" in its Designation is dropped,
    while the claimed three-column OR-match keeps it. -/
theorem pediatric_three_column_cex :
    (specialtyStage "paediatric" dfC1).rows = [] ∧
    specClaimedPediatricRows dfC1 = [rowC1] ∧
    (specialtyStage "paediatric" dfC1).rows ≠ specClaimedPediatricRows dfC1 := by
  refine ⟨by decide, by decide, ?_⟩
  intro h
  rw [show (specialtyStage "paediatric" dfC1).rows = [] from by decide,
    show specClaimedPediatricRows dfC1 = [rowC1] from by decide] at h
  exact List.noConfusion h

/-- C1 amended: in the pediatric case the stage OR-matches the four fallback
    specialties against the Specialty column only (when present); if that
    yields zero rows it retries once on its input dataset with the literal
    (corrected) term OR-matched across Specialty, Designation and Services. -/
theorem pediatric_stage_amended (f : String) (df : DF)
    (hped : pedCase (applyCorrection f) = true) :
    (specialtyStage f df).rows =
      (if (df.rows.filter (fun r => decide ("Specialty" ∈ df.cols) &&
            fallback_specialties.any (fun fb => icontains (r.getD "Specialty") fb))).isEmpty then
        df.rows.filter (fun r => search_columns.any (fun col =>
          decide (col ∈ df.cols) && icontains (r.getD col) (applyCorrection f)))
      else
        df.rows.filter (fun r => decide ("Specialty" ∈ df.cols) &&
          fallback_specialties.any (fun fb => icontains (r.getD "Specialty") fb))) := by
  have hped2 : pedP df.cols = fun r => decide ("Specialty" ∈ df.cols) &&
      fallback_specialties.any (fun fb => icontains (r.getD "Specialty") fb) :=
    funext fun r => pedP_any df.cols r
  have hthree : threeP df.cols (applyCorrection f) = fun r => search_columns.any (fun col =>
      decide (col ∈ df.cols) && icontains (r.getD col) (applyCorrection f)) :=
    funext fun r => threeP_any df.cols (applyCorrection f) r
  rw [specialtyStage_eq, if_pos hped, hped2, hthree]
  by_cases h : (df.rows.filter (fun r => decide ("Specialty" ∈ df.cols) &&
      fallback_specialties.any (fun fb => icontains (r.getD "Specialty") fb))).isEmpty
  · rw [if_pos h, if_pos h]
  · rw [if_neg h, if_neg h]

/-- Witness for the amended C1 theorem: filter "pediatric", one row whose
    Specialty contains a fallback specialty; the stage keeps it. -/
theorem pediatric_stage_amended_w :
    (specialtyStage "pediatric" dfC1w).rows =
      (if (dfC1w.rows.filter (fun r => decide ("Specialty" ∈ dfC1w.cols) &&
            fallback_specialties.any (fun fb => icontains (r.getD "Specialty") fb))).isEmpty then
        dfC1w.rows.filter (fun r => search_columns.any (fun col =>
          decide (col ∈ dfC1w.cols) && icontains (r.getD col) (applyCorrection "pediatric")))
      else
        dfC1w.rows.filter (fun r => decide ("Specialty" ∈ dfC1w.cols) &&
          fallback_specialties.any (fun fb => icontains (r.getD "Specialty") fb))) ∧
    (specialtyStage "pediatric" dfC1w).rows = [rowC1w] :=
  ⟨pediatric_stage_amended "pediatric" dfC1w (by decide), by decide⟩

theorem clinicAssemble_aux (loc : String) (rows : List Row) (a b c : List Row) :
    rows.foldl
      (fun (acc : List Row × List Row × List Row) r =>
        if areaHit loc r then (acc.1 ++ [r], acc.2.1, acc.2.2)
        else if addrHit loc r then (acc.1, acc.2.1 ++ [r], acc.2.2)
        else (acc.1, acc.2.1, acc.2.2 ++ [r]))
      (a, b, c)
      = (a ++ rows.filter (areaHit loc),
         b ++ rows.filter (fun r => !areaHit loc r && addrHit loc r),
         c ++ rows.filter (fun r => !areaHit loc r && !addrHit loc r)) := by
  induction rows generalizing a b c with
  | nil => simp
  | cons r rs ih =>
    simp only [List.foldl_cons, List.filter_cons]
    by_cases h1 : areaHit loc r
    · simp [h1, ih, List.append_assoc]
    · by_cases h2 : addrHit loc r <;> simp [h1, h2, ih, List.append_assoc]

/-- C5: with a non-empty location filter and a non-empty filtered set, the
    clinic assembler partitions the rows (each re-evaluated) into Area
    matches, else Address matches, else nearby, and concatenates the three
    tiers capped at 10, 5 and 5, in that order. -/
theorem clinic_assembler_tiers (loc : String) (rows : List Row)
    (hloc : loc ≠ "") (hrows : rows ≠ []) :
    clinicAssemble loc rows =
      (rows.filter (areaHit loc)).take 10
      ++ (rows.filter (fun r => !areaHit loc r && addrHit loc r)).take 5
      ++ (rows.filter (fun r => !areaHit loc r && !addrHit loc r)).take 5 ∧
    ((rows.filter (areaHit loc)).take 10).length ≤ 10 ∧
    ((rows.filter (fun r => !areaHit loc r && addrHit loc r)).take 5).length ≤ 5 ∧
    ((rows.filter (fun r => !areaHit loc r && !addrHit loc r)).take 5).length ≤ 5 := by
  refine ⟨?_, List.length_take_le 10 _, List.length_take_le 5 _, List.length_take_le 5 _⟩
  unfold clinicAssemble
  rw [clinicAssemble_aux loc rows [] [] []]
  simp only [List.nil_append]

/-- Witness for C5: two Tampines-area rows and one other; the Area tier comes
    first, then the nearby tier. -/
theorem clinic_assembler_tiers_w :
    clinicAssemble "Tampines" [rowC6, rowC4a] =
      ([rowC6, rowC4a].filter (areaHit "Tampines")).take 10
      ++ ([rowC6, rowC4a].filter (fun r => !areaHit "Tampines" r && addrHit "Tampines" r)).take 5
      ++ ([rowC6, rowC4a].filter
            (fun r => !areaHit "Tampines" r && !addrHit "Tampines" r)).take 5 ∧
    clinicAssemble "Tampines" [rowC6, rowC4a] = [rowC6, rowC4a] :=
  ⟨(clinic_assembler_tiers "Tampines" [rowC6, rowC4a] (by decide) (by decide)).1, by decide⟩

theorem adjP_any (cols : List String) (ns : List String) (loc : String) (r : Row)
    (hd : directP cols loc r = false) :
    adjP cols ns loc r =
      (decide ("Area" ∈ cols) && ns.any (fun nb => icontains (r.getD "Area") nb)) := by
  unfold adjP
  rw [hd]
  by_cases h : "Area" ∈ cols
  · simp only [h, if_true]
    rw [foldl_or_any (fun nb => icontains (r.getD "Area") nb) ns false]
    simp [h]
  · simp only [h, if_false]
    have hfold : ns.foldl (fun (b : Bool) _ => b) false = false := by
      induction ns with
      | nil => rfl
      | cons n ns ih => simpa using ih
    rw [hfold]
    simp [h]

/-- C6: for a clinic-intent area-name filter with no direct Area/Address
    match, the stage OR-matches the Area column against each neighbor listed
    for the lowercased area name in the fixed adjacency table (and yields the
    empty set for unknown names). -/
theorem adjacency_fallback (loc : String) (df : DF)
    (hpostal : (pyIsDigitStr loc && loc.length == 6) = false)
    (hdirect : ∀ r ∈ df.rows, directP df.cols loc r = false) :
    (locationStage loc Intent.find_clinic df).rows =
      (match nearby_areas.find? (fun p => p.1 == pyLower loc) with
       | some p => df.rows.filter (fun r =>
           decide ("Area" ∈ df.cols) && p.2.any (fun nb => icontains (r.getD "Area") nb))
       | none => []) := by
  have hany : df.rows.any (directP df.cols loc) = false := by
    rw [List.any_eq_false]
    intro r hr
    simp [hdirect r hr]
  unfold locationStage
  rw [hpostal]
  simp only [Bool.false_eq_true, if_false]
  rw [areaNameClinicStage_eq, if_neg (by rw [hany]; exact Bool.false_ne_true)]
  cases hf : nearby_areas.find? (fun p => p.1 == pyLower loc) with
  | none =>
    dsimp only
    rw [List.filter_eq_nil_iff.mpr]
    intro r hr
    simp [hdirect r hr]
  | some p =>
    dsimp only
    exact List.filter_congr (fun r hr => adjP_any df.cols p.2 loc r (hdirect r hr))

/-- Witness for C6, the spec's scenario 3: filter "Bedok", one clinic whose
    Area is "Tampines" and no direct match; the adjacency fallback returns
    that clinic. -/
theorem adjacency_fallback_w :
    (locationStage "Bedok" Intent.find_clinic dfC6).rows =
      (match nearby_areas.find? (fun p => p.1 == pyLower "Bedok") with
       | some p => dfC6.rows.filter (fun r =>
           decide ("Area" ∈ dfC6.cols) && p.2.any (fun nb => icontains (r.getD "Area") nb))
       | none => []) ∧
    (locationStage "Bedok" Intent.find_clinic dfC6).rows = [rowC6] := by
  have h := adjacency_fallback "Bedok" dfC6 (by decide) (by decide)
  exact ⟨h, by rw [h]; decide⟩

theorem foldl_min_le (l : List ℚ) (a : ℚ) : l.foldl min a ≤ a := by
  induction l generalizing a with
  | nil => exact le_refl a
  | cons x xs ih => exact le_trans (ih (min a x)) (min_le_left a x)

theorem foldl_min_le_mem (l : List ℚ) (a x : ℚ) (h : x ∈ l) : l.foldl min a ≤ x := by
  induction l generalizing a with
  | nil => cases h
  | cons y ys ih =>
    rcases List.mem_cons.mp h with h1 | h2
    · subst h1
      exact le_trans (foldl_min_le ys (min a x)) (min_le_right a x)
    · exact ih (min a y) h2

theorem listMinD_le_of_mem (l : List ℚ) (x : ℚ) (h : x ∈ l) : listMinD l ≤ x := by
  cases l with
  | nil => cases h
  | cons y ys =>
    unfold listMinD
    rcases List.mem_cons.mp h with h1 | h2
    · subst h1
      exact foldl_min_le ys x
    · exact foldl_min_le_mem ys y x h2

theorem foldl_keep (l : List String) (b : ℚ) : l.foldl (fun best _ => best) b = b := by
  induction l generalizing b with
  | nil => rfl
  | cons x xs ih => simpa using ih b

/-- C9: if the keyword contains a whitespace-delimited word shorter than 3
    characters, strategy 4 reports no candidate: the short word's best
    per-word score stays 0, so the minimum per-word score cannot exceed the
    qualification threshold of 35. -/
theorem short_word_blocks_strategy4 (keywords : String) (names : List String)
    (h : ∃ w ∈ pySplit (pyLower keywords), w.length < 3) :
    multiWordMatches keywords names = [] := by
  obtain ⟨w, hw, hlen⟩ := h
  unfold multiWordMatches
  rw [List.filterMap_eq_nil_iff]
  intro e he
  dsimp only
  have hnotlen : ¬ (w.length ≥ 3) := by omega
  have hw0 : (pySplit (pyLower e.2)).foldl
      (fun best nw =>
        if w.length ≥ 3 then
          if pyContains nw w || pyContains w nw then max best 80
          else max best (fuzzRatio w nw)
        else best) 0 = 0 := by
    simp only [if_neg hnotlen]
    exact foldl_keep _ 0
  have hmem := List.mem_map_of_mem (fun kw => (pySplit (pyLower e.2)).foldl
      (fun best nw =>
        if kw.length ≥ 3 then
          if pyContains nw kw || pyContains kw nw then max best 80
          else max best (fuzzRatio kw nw)
        else best) 0) hw
  simp only at hmem
  rw [hw0] at hmem
  have hmin := listMinD_le_of_mem _ 0 hmem
  rw [if_neg]
  rintro ⟨hpos, hgt⟩
  exact absurd hgt (not_lt.mpr (le_trans hmin (by norm_num)))

/-- Witness for C9: the keyword "li tan" has the 2-character word "li", so
    strategy 4 reports nothing against the candidate "Li Wei". -/
theorem short_word_blocks_strategy4_w :
    multiWordMatches "li tan" ["Li Wei"] = [] :=
  short_word_blocks_strategy4 "li tan" ["Li Wei"] ⟨"li", by decide, by decide⟩

theorem filterPipeline_keywords_irrel (i : Intent) (kw kw2 fs fl fa : String) (df : DF) :
    filterPipeline ⟨i, kw, fs, fl, fa⟩ df = filterPipeline ⟨i, kw2, fs, fl, fa⟩ df := rfl

/-- C10: a doctor-intent query whose keyword has exactly one character never
    enters the fuzzy name search; like a keywordless query it returns the
    first 10 rows of the filtered set in dataset order. -/
theorem single_char_keyword_generic (df_c df_d : DF) (p : Plan)
    (ex1 ex2 ex3 : String → List String → List (String × ℚ × Nat))
    (hint : p.intent = Intent.find_doctor) (hkw : p.keywords.length = 1) :
    search df_c df_d (some p) ex1 ex2 ex3
      = Except.ok ((filterPipeline p df_d).rows.take 10, some p) ∧
    search df_c df_d (some ⟨Intent.find_doctor, "", p.fSpecialty, p.fLanguages, p.fArea⟩)
        ex1 ex2 ex3
      = Except.ok ((filterPipeline p df_d).rows.take 10,
          some ⟨Intent.find_doctor, "", p.fSpecialty, p.fLanguages, p.fArea⟩) := by
  obtain ⟨i, kw, fs, fl, fa⟩ := p
  dsimp only at hint hkw
  subst hint
  have hkwcond : ¬(kw ≠ "" ∧ kw.length > 1) := by
    rintro ⟨h1, h2⟩
    omega
  constructor
  · by_cases hemp : (filterPipeline ⟨Intent.find_doctor, kw, fs, fl, fa⟩ df_d).rows.isEmpty
    · simp [search, hemp, List.isEmpty_iff.mp hemp]
    · simp [search, hemp, hkwcond]
  · rw [filterPipeline_keywords_irrel Intent.find_doctor kw "" fs fl fa df_d]
    by_cases hemp : (filterPipeline ⟨Intent.find_doctor, "", fs, fl, fa⟩ df_d).rows.isEmpty
    · simp [search, hemp, List.isEmpty_iff.mp hemp]
    · simp [search, hemp]

/-- Witness for C10: keyword "x" (length 1), no filters; the result is the
    dataset's first 10 rows (here its single row) with the plan echoed. -/
theorem single_char_keyword_generic_w :
    search dfC6 dfC1 (some ⟨Intent.find_doctor, "x", "", "", ""⟩) exNone exNone exNone
      = Except.ok ((filterPipeline ⟨Intent.find_doctor, "x", "", "", ""⟩ dfC1).rows.take 10,
          some ⟨Intent.find_doctor, "x", "", "", ""⟩) ∧
    search dfC6 dfC1 (some ⟨Intent.find_doctor, "x", "", "", ""⟩) exNone exNone exNone
      = Except.ok ([rowC1], some ⟨Intent.find_doctor, "x", "", "", ""⟩) :=
  ⟨(single_char_keyword_generic dfC6 dfC1 ⟨Intent.find_doctor, "x", "", "", ""⟩
      exNone exNone exNone rfl (by decide)).1,
   rfl⟩

theorem distLe_trans : ∀ (a b c : Row), distLe a b → distLe b c → distLe a c := by
  intro a b c h1 h2
  simp only [distLe, decide_eq_true_eq] at *
  exact le_trans h1 h2

theorem distLe_total : ∀ (a b : Row), distLe a b || distLe b a := by
  intro a b
  simp only [distLe]
  rcases le_total (a.dist.getD 0) (b.dist.getD 0) with h | h <;> simp [h]

/-- C4: for a clinic-intent query whose location filter is exactly six
    digits, the geographic stage keeps exactly the rows with an extractable
    postal code after the city marker, attaches the heuristic distance to
    the query code as _distance, sorts ascending by it, keeps at most the
    closest 20 (a prefix of the full sorted candidate list), and is empty
    when no row has an extractable code. -/
theorem postal_geographic_stage (loc : String) (df : DF)
    (hdigit : pyIsDigitStr loc = true) (hlen : loc.length = 6) :
    ((locationStage loc Intent.find_clinic df).rows.length
        = min 20 (postalCandidates (digitsToNat loc.data) df.rows).length) ∧
    (locationStage loc Intent.find_clinic df).rows.Pairwise (fun a b => distLe a b = true) ∧
    (∀ r ∈ (locationStage loc Intent.find_clinic df).rows, ∃ r0 ∈ df.rows, ∃ c,
        extractPostal (r0.getD "Address") = some c ∧
        r = r0.withDist (calculate_postal_distance (digitsToNat loc.data) c)) ∧
    List.IsPrefix (locationStage loc Intent.find_clinic df).rows
      ((postalCandidates (digitsToNat loc.data) df.rows).mergeSort distLe) ∧
    ((∀ r ∈ df.rows, extractPostal (r.getD "Address") = none) →
      (locationStage loc Intent.find_clinic df).rows = []) := by
  have hdisp : locationStage loc Intent.find_clinic df
      = postalStage (digitsToNat loc.data) df := by
    unfold locationStage
    rw [if_pos]
    rw [hdigit, hlen]
    rfl
  rw [hdisp]
  unfold postalStage
  by_cases hemp : (postalCandidates (digitsToNat loc.data) df.rows).isEmpty
  · rw [if_pos hemp]
    have hnil : postalCandidates (digitsToNat loc.data) df.rows = [] :=
      List.isEmpty_iff.mp hemp
    refine ⟨?_, ?_, ?_, ?_, fun _ => rfl⟩
    · rw [hnil]
      rfl
    · exact List.Pairwise.nil
    · intro r hr
      cases hr
    · exact List.nil_prefix
  · rw [if_neg hemp]
    dsimp only
    refine ⟨?_, ?_, ?_, List.take_prefix _ _, ?_⟩
    · rw [List.length_take, List.length_mergeSort]
    · exact List.Pairwise.sublist (List.take_sublist _ _)
        (List.sorted_mergeSort distLe_trans distLe_total _)
    · intro r hr
      have hr2 : r ∈ postalCandidates (digitsToNat loc.data) df.rows := by
        exact List.mem_mergeSort.mp (List.take_subset _ _ hr)
      obtain ⟨r0, hr0, hmapped⟩ := List.mem_filterMap.mp hr2
      obtain ⟨c, hc, heq⟩ := Option.map_eq_some'.mp hmapped
      exact ⟨r0, hr0, c, hc, heq.symm⟩
    · intro hall
      have hnil : postalCandidates (digitsToNat loc.data) df.rows = [] := by
        unfold postalCandidates
        apply List.filterMap_eq_nil_iff.mpr
        intro r hr
        rw [hall r hr]
        rfl
      rw [hnil] at hemp
      exact absurd rfl hemp

unseal List.merge List.mergeSort in
/-- Witness for C4, the spec's scenario 2: query postal code 641652 against
    addresses embedding 640526 and 641651; both are extracted and ranked by
    the heuristic distance, the closer clinic (distance 1) first. -/
theorem postal_geographic_stage_w :
    ((locationStage "641652" Intent.find_clinic dfC4).rows.length
        = min 20 (postalCandidates 641652 dfC4.rows).length) ∧
    (locationStage "641652" Intent.find_clinic dfC4).rows
      = [Row.withDist rowC4b 1, Row.withDist rowC4a 1126] :=
  ⟨(postal_geographic_stage "641652" dfC4 (by decide) (by decide)).1, by decide⟩

unseal List.merge List.mergeSort in
/-- C2 counterexample: keyword "ab" (length 2) against six upper-case
    candidate names.  All strategy scores are 0 (no shared character
    case-sensitively, and a length-2 word blocks strategy 4), the fused
    selection is empty, and the absolute fallback returns all 6 containment
    matches: the output has 6 > 5 entries, and although the exact tier over
    the candidates has 3 entries, the output contains the non-exact "XAB1". -/
theorem fuzzy_cap_cex :
    fuzzySearch exZeroC2 exZeroC2 exZeroC2 "ab" dfC2 = Except.ok dfC2.rows ∧
    dfC2.rows.length = 6 ∧
    (dfC2.rows.filter (fun r => isExactName "ab" (r.getD "Name"))).length = 3 ∧
    ∃ r ∈ dfC2.rows, isExactName "ab" (r.getD "Name") = false :=
  ⟨rfl, by decide, by decide, ⟨⟨[("Name", "XAB1")], none⟩, by decide, by decide⟩⟩

theorem ilocAll_length (rows : List Row) (l : List (String × Fused)) (res : List Row)
    (h : ilocAll rows l = Except.ok res) : res.length = l.length := by
  induction l generalizing res with
  | nil =>
    simp only [ilocAll] at h
    cases h
    rfl
  | cons e es ih =>
    simp only [ilocAll] at h
    cases he : ilocE rows e.2.idx with
    | error u => rw [he] at h; cases h
    | ok r =>
      rw [he] at h
      cases hrest : ilocAll rows es with
      | error u => rw [hrest] at h; cases h
      | ok rest =>
        rw [hrest] at h
        cases h
        simp [ih rest hrest]

theorem finalMatches_exact (keywords : String) (sortedMs : List (String × Fused))
    (h : (exactOf keywords sortedMs).length ≥ 3) :
    finalMatches keywords sortedMs = (exactOf keywords sortedMs).take 5 ∧
    ∀ e ∈ finalMatches keywords sortedMs, isExactName keywords e.1 = true := by
  have heq : finalMatches keywords sortedMs = (exactOf keywords sortedMs).take 5 := by
    unfold finalMatches
    rw [if_pos h]
  refine ⟨heq, ?_⟩
  intro e he
  rw [heq] at he
  have h2 : e ∈ exactOf keywords sortedMs := List.take_subset 5 _ he
  unfold exactOf at h2
  exact (List.mem_filter.mp h2).2

/-- C2 amended: the fused-selection path returns at most 5 results; when the
    fused selection is empty the absolute fallback returns instead up to 10
    plain containment matches in dataset order; and whenever the code's
    exact partition of the fused candidates has at least 3 entries, the
    selection is its top 5 and consists only of exact-predicate names.
    In every case the output has at most 10 entries. -/
theorem fuzzy_result_invariants (ex1 ex2 ex3 : String → List String → List (String × ℚ × Nat))
    (keywords : String) (fdf : DF) (out : List Row)
    (hok : fuzzySearch ex1 ex2 ex3 keywords fdf = Except.ok out) :
    let names := fdf.rows.map (fun r => r.getD "Name")
    let sortedMs := sortFused (fuseMatches (ex1 keywords names) (ex2 keywords names)
        (ex3 keywords names) (multiWordMatches keywords names))
    let final := finalMatches keywords sortedMs
    out.length ≤ 10 ∧
    (final ≠ [] → out.length ≤ 5) ∧
    (final = [] → out = containFallback keywords fdf.rows ∧
       ∀ r ∈ out, pyContains (pyLower (r.getD "Name")) (pyLower keywords) = true) ∧
    ((exactOf keywords sortedMs).length ≥ 3 →
       final = (exactOf keywords sortedMs).take 5 ∧
       ∀ e ∈ final, isExactName keywords e.1 = true) := by
  intro names sortedMs final
  unfold fuzzySearch at hok
  cases hcol : dfColumn fdf "Name" with
  | error u => rw [hcol] at hok; cases hok
  | ok names0 =>
    rw [hcol] at hok
    have hnames : names0 = names := by
      unfold dfColumn at hcol
      by_cases hmem : "Name" ∈ fdf.cols
      · rw [if_pos hmem] at hcol
        cases hcol
        rfl
      · rw [if_neg hmem] at hcol
        cases hcol
    subst hnames
    dsimp only at hok
    cases hIl : ilocAll fdf.rows ((finalMatches keywords (sortFused (fuseMatches
        (ex1 keywords names) (ex2 keywords names) (ex3 keywords names)
        (multiWordMatches keywords names)))).take 5) with
    | error u => rw [hIl] at hok; cases hok
    | ok results =>
      rw [hIl] at hok
      dsimp only at hok
      have hlen := ilocAll_length _ _ _ hIl
      rw [List.length_take] at hlen
      by_cases hres : results.isEmpty
      · rw [if_pos hres] at hok
        cases hok
        have hfin : final = [] := by
          have h0 : results.length = 0 := by
            rw [List.isEmpty_iff.mp hres]
            rfl
          rw [h0] at hlen
          rcases Nat.min_eq_zero_iff.mp hlen.symm with h5 | hF
          · omega
          · exact List.length_eq_zero.mp hF
        refine ⟨List.length_take_le 10 _, fun hne => absurd hfin hne, fun _ => ⟨rfl, ?_⟩,
          fun hex => finalMatches_exact keywords sortedMs hex⟩
        intro r hr
        exact (List.mem_filter.mp (List.take_subset _ _ hr)).2
      · rw [if_neg hres] at hok
        cases hok
        have h5 : out.length ≤ 5 := by
          rw [hlen]
          exact Nat.min_le_left 5 _
        refine ⟨le_trans h5 (by omega), fun _ => h5, ?_,
          fun hex => finalMatches_exact keywords sortedMs hex⟩
        intro hfin
        exfalso
        apply hres
        have hT : (finalMatches keywords (sortFused (fuseMatches (ex1 keywords names)
            (ex2 keywords names) (ex3 keywords names)
            (multiWordMatches keywords names)))) = ([] : List (String × Fused)) := hfin
        rw [List.isEmpty_iff, ← List.length_eq_zero, hlen, hT]
        rfl

unseal List.merge List.mergeSort in
/-- Witness for the amended C2 theorem at the concrete keyword "ab" input of
    the counterexample: the fused selection is empty there and the fallback
    output obeys the stated bounds. -/
theorem fuzzy_result_invariants_w :
    (let names := dfC2.rows.map (fun r => r.getD "Name")
     let sortedMs := sortFused (fuseMatches (exZeroC2 "ab" names) (exZeroC2 "ab" names)
        (exZeroC2 "ab" names) (multiWordMatches "ab" names))
     let final := finalMatches "ab" sortedMs
     dfC2.rows.length ≤ 10 ∧
     (final ≠ [] → dfC2.rows.length ≤ 5) ∧
     (final = [] → dfC2.rows = containFallback "ab" dfC2.rows ∧
        ∀ r ∈ dfC2.rows, pyContains (pyLower (r.getD "Name")) (pyLower "ab") = true) ∧
     ((exactOf "ab" sortedMs).length ≥ 3 →
        final = (exactOf "ab" sortedMs).take 5 ∧
        ∀ e ∈ final, isExactName "ab" e.1 = true)) :=
  fuzzy_result_invariants exZeroC2 exZeroC2 exZeroC2 "ab" dfC2 dfC2.rows rfl

theorem updEntry_mem (d : List (String × Fused)) (n : String) (v : Fused) (x : String × Fused)
    (hx : x ∈ updEntry d n v) : x ∈ d ∨ x = (n, v) := by
  induction d with
  | nil =>
    simp only [updEntry, List.mem_singleton] at hx
    exact Or.inr hx
  | cons kv rest ih =>
    obtain ⟨k, old⟩ := kv
    simp only [updEntry] at hx
    by_cases hk : (k == n) = true
    · rw [if_pos hk] at hx
      by_cases hw : v.weighted > old.weighted
      · rw [if_pos hw] at hx
        rcases List.mem_cons.mp hx with hx1 | hx2
        · right
          rw [hx1, eq_of_beq hk]
        · exact Or.inl (List.mem_cons_of_mem _ hx2)
      · rw [if_neg hw] at hx
        exact Or.inl hx
    · rw [if_neg hk] at hx
      rcases List.mem_cons.mp hx with hx1 | hx2
      · exact Or.inl (hx1 ▸ List.mem_cons_self _ _)
      · rcases ih hx2 with hx3 | hx4
        · exact Or.inl (List.mem_cons_of_mem _ hx3)
        · exact Or.inr hx4

theorem fuseStep_mem (strategyName : String) (d : List (String × Fused))
    (ms : List (String × ℚ × Nat)) (x : String × Fused)
    (hx : x ∈ fuseStep strategyName d ms) :
    x ∈ d ∨ ∃ m ∈ ms, x = (m.1, ⟨applyWeight strategyName m.2.1, m.2.2, m.2.1⟩) := by
  induction ms generalizing d with
  | nil => exact Or.inl hx
  | cons m ms ih =>
    simp only [fuseStep, List.foldl_cons] at hx
    have hx2 : x ∈ fuseStep strategyName
        (if m.2.1 > 25 then updEntry d m.1 ⟨applyWeight strategyName m.2.1, m.2.2, m.2.1⟩ else d)
        ms := hx
    rcases ih _ hx2 with hA | hB
    · by_cases hs : m.2.1 > 25
      · rw [if_pos hs] at hA
        rcases updEntry_mem _ _ _ _ hA with h3 | h4
        · exact Or.inl h3
        · exact Or.inr ⟨m, List.mem_cons_self _ _, h4⟩
      · rw [if_neg hs] at hA
        exact Or.inl hA
    · obtain ⟨m2, hm2, he⟩ := hB
      exact Or.inr ⟨m2, List.mem_cons_of_mem _ hm2, he⟩

theorem fuseMatches_idx (m1 m2 m3 m4 : List (String × ℚ × Nat)) (n : Nat)
    (h1 : ∀ m ∈ m1, m.2.2 < n) (h2 : ∀ m ∈ m2, m.2.2 < n) (h3 : ∀ m ∈ m3, m.2.2 < n)
    (h4 : ∀ m ∈ m4, m.2.2 < n) :
    ∀ x ∈ fuseMatches m1 m2 m3 m4, x.2.idx < n := by
  intro x hx
  unfold fuseMatches at hx
  rcases fuseStep_mem _ _ _ _ hx with hx | ⟨m, hm, he⟩
  · rcases fuseStep_mem _ _ _ _ hx with hx | ⟨m, hm, he⟩
    · rcases fuseStep_mem _ _ _ _ hx with hx | ⟨m, hm, he⟩
      · rcases fuseStep_mem _ _ _ _ hx with hx | ⟨m, hm, he⟩
        · cases hx
        · rw [he]; exact h1 m hm
      · rw [he]; exact h2 m hm
    · rw [he]; exact h3 m hm
  · rw [he]; exact h4 m hm

theorem multiWordMatches_idx (keywords : String) (names : List String) :
    ∀ m ∈ multiWordMatches keywords names, m.2.2 < names.length := by
  intro m hm
  unfold multiWordMatches at hm
  obtain ⟨e, he, hme⟩ := List.mem_filterMap.mp hm
  dsimp only at hme
  split at hme
  · cases hme
    exact List.fst_lt_of_mem_enum he
  · cases hme

theorem finalMatches_idx (keywords : String) (sortedMs : List (String × Fused)) (n : Nat)
    (h : ∀ x ∈ sortedMs, x.2.idx < n) :
    ∀ x ∈ finalMatches keywords sortedMs, x.2.idx < n := by
  intro x hx
  unfold finalMatches at hx
  by_cases hex : (exactOf keywords sortedMs).length ≥ 3
  · rw [if_pos hex] at hx
    have hx2 := List.take_subset _ _ hx
    unfold exactOf at hx2
    exact h x (List.mem_filter.mp hx2).1
  · rw [if_neg hex] at hx
    rcases List.mem_append.mp hx with hx1 | hx2
    · unfold exactOf at hx1
      exact h x (List.mem_filter.mp hx1).1
    · have hx3 := List.take_subset _ _ hx2
      have hx4 := (List.mem_filter.mp hx3).1
      unfold fuzzyOf at hx4
      exact h x (List.mem_filter.mp hx4).1

theorem ilocAll_ok (rows : List Row) (l : List (String × Fused))
    (hb : ∀ e ∈ l, e.2.idx < rows.length) : ∃ res, ilocAll rows l = Except.ok res := by
  induction l with
  | nil => exact ⟨[], rfl⟩
  | cons e es ih =>
    have hidx := hb e (List.mem_cons_self e es)
    have hget : ∃ r, rows.get? e.2.idx = some r := by
      cases hg : rows.get? e.2.idx with
      | none =>
        rw [List.get?_eq_none] at hg
        omega
      | some r => exact ⟨r, rfl⟩
    obtain ⟨r, hr⟩ := hget
    obtain ⟨res, hres⟩ := ih (fun x hx => hb x (List.mem_cons_of_mem e hx))
    refine ⟨r :: res, ?_⟩
    simp only [ilocAll, ilocE, hr, hres]

theorem fuzzySearch_ok (ex1 ex2 ex3 : String → List String → List (String × ℚ × Nat))
    (h1 : ValidOracle ex1) (h2 : ValidOracle ex2) (h3 : ValidOracle ex3)
    (keywords : String) (fdf : DF) (hmem : "Name" ∈ fdf.cols) :
    ∃ out, fuzzySearch ex1 ex2 ex3 keywords fdf = Except.ok out := by
  unfold fuzzySearch
  rw [show dfColumn fdf "Name" = Except.ok (fdf.rows.map (fun r => r.getD "Name")) from by
    unfold dfColumn
    rw [if_pos hmem]]
  dsimp only
  have hsort : ∀ y ∈ sortFused (fuseMatches
      (ex1 keywords (fdf.rows.map (fun r => r.getD "Name")))
      (ex2 keywords (fdf.rows.map (fun r => r.getD "Name")))
      (ex3 keywords (fdf.rows.map (fun r => r.getD "Name")))
      (multiWordMatches keywords (fdf.rows.map (fun r => r.getD "Name")))),
      y.2.idx < (fdf.rows.map (fun r => r.getD "Name")).length := by
    intro y hy
    unfold sortFused at hy
    rw [List.mem_mergeSort] at hy
    exact fuseMatches_idx _ _ _ _ _ (fun m hm => h1 _ _ _ hm) (fun m hm => h2 _ _ _ hm)
      (fun m hm => h3 _ _ _ hm) (multiWordMatches_idx _ _) y hy
  have hidx : ∀ x ∈ (finalMatches keywords (sortFused (fuseMatches
      (ex1 keywords (fdf.rows.map (fun r => r.getD "Name")))
      (ex2 keywords (fdf.rows.map (fun r => r.getD "Name")))
      (ex3 keywords (fdf.rows.map (fun r => r.getD "Name")))
      (multiWordMatches keywords (fdf.rows.map (fun r => r.getD "Name")))))).take 5,
      x.2.idx < fdf.rows.length := by
    intro x hx
    have hx2 := List.take_subset _ _ hx
    have hb := finalMatches_idx _ _ _ hsort x hx2
    rw [List.length_map] at hb
    exact hb
  obtain ⟨res, hres⟩ := ilocAll_ok fdf.rows _ hidx
  rw [hres]
  dsimp only
  by_cases hr : res.isEmpty
  · rw [if_pos hr]
    exact ⟨_, rfl⟩
  · rw [if_neg hr]
    exact ⟨_, rfl⟩

/-- C7 counterexample: a doctor-name query (keyword "low") on a non-empty
    doctor dataset lacking the Name column reaches filtered_df['Name']
    unguarded, so the entry point raises KeyError instead of skipping the
    stage. -/
theorem search_keyerror_cex :
    search dfC6 dfNoName (some pC7) exNone exNone exNone = Except.error () := rfl

/-- C7 amended: every filter/ranking stage except the doctor-name fuzzy
    search skips when its required column is absent, and with well-formed
    strategy oracles the entry point raises exactly when a doctor-intent
    query with a truthy keyword of length > 1 reaches the fuzzy stage on a
    non-empty filtered set lacking the Name column; in every other case it
    returns a (possibly empty) result sequence plus the plan metadata. -/
theorem search_error_characterization (df_c df_d : DF) (plan : Option Plan)
    (ex1 ex2 ex3 : String → List String → List (String × ℚ × Nat))
    (h1 : ValidOracle ex1) (h2 : ValidOracle ex2) (h3 : ValidOracle ex3) :
    (search df_c df_d plan ex1 ex2 ex3 = Except.error ()) ↔
      (∃ p, plan = some p ∧ p.intent = Intent.find_doctor ∧
        p.keywords ≠ "" ∧ p.keywords.length > 1 ∧
        (filterPipeline p df_d).rows ≠ [] ∧ "Name" ∉ (filterPipeline p df_d).cols) := by
  cases plan with
  | none =>
    constructor
    · intro h
      cases h
    · rintro ⟨p, hp, _⟩
      cases hp
  | some p =>
    cases hint : p.intent with
    | find_clinic =>
      constructor
      · intro herr
        exfalso
        by_cases hemp : (filterPipeline p df_c).rows.isEmpty
        · simp [search, hint, hemp] at herr
        · by_cases harea : p.fArea = ""
          · simp [search, hint, hemp, harea] at herr
          · simp [search, hint, hemp, harea] at herr
      · rintro ⟨p2, hp2, hint2, _⟩
        cases hp2
        rw [hint] at hint2
        cases hint2
    | find_doctor =>
      constructor
      · intro herr
        by_cases hemp : (filterPipeline p df_d).rows.isEmpty
        · exfalso
          simp [search, hint, hemp] at herr
        · by_cases hkw1 : p.keywords = ""
          · exfalso
            simp [search, hint, hemp, hkw1] at herr
          · by_cases hkw2 : p.keywords.length > 1
            · by_cases hmem : "Name" ∈ (filterPipeline p df_d).cols
              · exfalso
                obtain ⟨out, hout⟩ :=
                  fuzzySearch_ok ex1 ex2 ex3 h1 h2 h3 p.keywords (filterPipeline p df_d) hmem
                simp [search, hint, hemp, hkw1, hkw2, hout, Except.map] at herr
              · refine ⟨p, rfl, hint, hkw1, hkw2, ?_, hmem⟩
                intro heq
                exact hemp (by rw [heq]; rfl)
            · exfalso
              simp [search, hint, hemp, hkw1, hkw2] at herr
      · rintro ⟨p2, hp2, hint2, hkw1, hkw2, hrows, hmem⟩
        cases hp2
        have hemp : ¬ (filterPipeline p df_d).rows.isEmpty = true := by
          intro h
          exact hrows (List.isEmpty_iff.mp h)
        have hfz : fuzzySearch ex1 ex2 ex3 p.keywords (filterPipeline p df_d)
            = Except.error () := by
          unfold fuzzySearch
          rw [show dfColumn (filterPipeline p df_d) "Name" = Except.error () from by
            unfold dfColumn
            rw [if_neg hmem]]
        simp [search, hint, hemp, hkw1, hkw2, hfz, Except.map]

unseal List.merge List.mergeSort in
/-- Witness for the amended C7 theorem: on a doctor dataset that does have a
    Name column the characterization applies and the same query returns
    normally (here with an empty result list). -/
theorem search_error_characterization_w :
    ((search dfC6 dfDoctors (some pC7) exNone exNone exNone = Except.error ()) ↔
      (∃ p, (some pC7 : Option Plan) = some p ∧ p.intent = Intent.find_doctor ∧
        p.keywords ≠ "" ∧ p.keywords.length > 1 ∧
        (filterPipeline p dfDoctors).rows ≠ [] ∧
        "Name" ∉ (filterPipeline p dfDoctors).cols)) ∧
    search dfC6 dfDoctors (some pC7) exNone exNone exNone = Except.ok ([], some pC7) :=
  ⟨search_error_characterization dfC6 dfDoctors (some pC7) exNone exNone exNone
      (fun _ _ e he => absurd he (List.not_mem_nil e))
      (fun _ _ e he => absurd he (List.not_mem_nil e))
      (fun _ _ e he => absurd he (List.not_mem_nil e)),
   by with_unfolding_all rfl⟩

theorem getD_cells (r r0 : Row) (h : r.cells = r0.cells) (c : String) : r.getD c = r0.getD c := by
  unfold Row.getD
  rw [h]

theorem pedP_compat (c1 c2 : List String) (hc : ColsCompat c1 c2) (r : Row) :
    pedP c1 r = pedP c2 r := by
  rw [pedP_any, pedP_any, decide_eq_decide.mpr (hc "Specialty" (by decide))]

theorem threeP_compat (c1 c2 : List String) (hc : ColsCompat c1 c2) (pat : String) (r : Row) :
    threeP c1 pat r = threeP c2 pat r := by
  rw [threeP_any, threeP_any]
  simp only [search_columns, List.any_cons, List.any_nil]
  rw [decide_eq_decide.mpr (hc "Specialty" (by decide)),
    decide_eq_decide.mpr (hc "Designation" (by decide)),
    decide_eq_decide.mpr (hc "Services" (by decide))]

theorem pedP_cells (cols : List String) (r r0 : Row) (h : r.cells = r0.cells) :
    pedP cols r = pedP cols r0 := by
  rw [pedP_any, pedP_any, getD_cells r r0 h]

theorem threeP_cells (cols : List String) (pat : String) (r r0 : Row) (h : r.cells = r0.cells) :
    threeP cols pat r = threeP cols pat r0 := by
  simp only [threeP_any, getD_cells r r0 h]

theorem cellsFrom_refl (rows : List Row) : CellsFrom rows rows := fun r hr => ⟨r, hr, rfl⟩

theorem cellsFrom_trans (a b c : List Row) (h1 : CellsFrom b a) (h2 : CellsFrom c b) :
    CellsFrom c a := by
  intro r hr
  obtain ⟨r1, hr1, he1⟩ := h2 r hr
  obtain ⟨r0, hr0, he0⟩ := h1 r1 hr1
  exact ⟨r0, hr0, he1.trans he0⟩

theorem cellsFrom_filter (p : Row → Bool) (rows : List Row) :
    CellsFrom (rows.filter p) rows :=
  fun r hr => ⟨r, (List.mem_filter.mp hr).1, rfl⟩

theorem specialtyStage_cols (f : String) (df : DF) : (specialtyStage f df).cols = df.cols := by
  rw [specialtyStage_eq]
  by_cases h1 : pedCase (applyCorrection f) = true
  · rw [if_pos h1]
    by_cases h2 : (df.rows.filter (pedP df.cols)).isEmpty
    · rw [if_pos h2]
    · rw [if_neg h2]
  · rw [if_neg h1]

theorem specialtyStage_cellsFrom (f : String) (df : DF) :
    CellsFrom (specialtyStage f df).rows df.rows := by
  rw [specialtyStage_eq]
  by_cases h1 : pedCase (applyCorrection f) = true
  · rw [if_pos h1]
    by_cases h2 : (df.rows.filter (pedP df.cols)).isEmpty
    · rw [if_pos h2]
      exact cellsFrom_filter _ _
    · rw [if_neg h2]
      exact cellsFrom_filter _ _
  · rw [if_neg h1]
    exact cellsFrom_filter _ _

theorem languageStage_cols (lf : String) (df : DF) : (languageStage lf df).cols = df.cols := by
  unfold languageStage
  by_cases h : "Languages" ∈ df.cols
  · rw [if_pos h]
  · rw [if_neg h]

theorem languageStage_cellsFrom (lf : String) (df : DF) :
    CellsFrom (languageStage lf df).rows df.rows := by
  unfold languageStage
  by_cases h : "Languages" ∈ df.cols
  · rw [if_pos h]
    exact cellsFrom_filter _ _
  · rw [if_neg h]
    exact cellsFrom_refl _

theorem colsCompat_refl (c : List String) : ColsCompat c c := fun _ _ => Iff.rfl

theorem colsCompat_addDist (cols : List String) :
    ColsCompat cols (if "_distance" ∈ cols then cols else cols ++ ["_distance"]) := by
  intro n hn
  by_cases h : "_distance" ∈ cols
  · rw [if_pos h]
  · rw [if_neg h]
    constructor
    · exact fun hm => List.mem_append_left _ hm
    · intro hm
      rcases List.mem_append.mp hm with h1 | h2
      · exact h1
      · rw [List.mem_singleton] at h2
        subst h2
        exact absurd hn (by decide)

theorem maskFilter_nil (m : List Bool) : maskFilter [] m = [] := rfl

/-- Each pipeline stage maps an empty row set to an empty row set. -/
theorem specialtyStage_nil (f : String) (df : DF) (h : df.rows = []) :
    (specialtyStage f df).rows = [] := by
  rw [specialtyStage_eq, h]
  by_cases h1 : pedCase (applyCorrection f) = true
  · rw [if_pos h1]
    simp [List.filter_nil]
  · rw [if_neg h1]
    simp [List.filter_nil]

theorem languageStage_nil (lf : String) (df : DF) (h : df.rows = []) :
    (languageStage lf df).rows = [] := by
  unfold languageStage
  by_cases hm : "Languages" ∈ df.cols
  · rw [if_pos hm]
    simp [h]
  · rw [if_neg hm]
    exact h

theorem locationStage_nil (loc : String) (intent : Intent) (df : DF) (h : df.rows = []) :
    (locationStage loc intent df).rows = [] := by
  unfold locationStage
  cases intent with
  | find_doctor =>
    unfold doctorLocationStage
    by_cases hm : (if "Area" ∈ df.cols then "Area" else "Address") ∈ df.cols
    · rw [if_pos hm]
      simp [h]
    · rw [if_neg hm]
      exact h
  | find_clinic =>
    by_cases hp : (pyIsDigitStr loc && loc.length == 6) = true
    · rw [if_pos hp]
      unfold postalStage postalCandidates
      rw [h]
      simp [List.filterMap_nil]
    · rw [if_neg hp]
      rw [areaNameClinicStage_eq]
      by_cases h1 : df.rows.any (directP df.cols loc) = true
      · rw [if_pos h1]
        simp [h]
      · rw [if_neg h1]
        cases nearby_areas.find? (fun q => q.1 == pyLower loc) with
        | none => simp [h]
        | some q => simp [h]

theorem filterPipeline_nil (p : Plan) (df : DF) (h : df.rows = []) :
    (filterPipeline p df).rows = [] := by
  unfold filterPipeline
  have h1 : (if p.fSpecialty ≠ "" then specialtyStage p.fSpecialty df else df).rows = [] := by
    by_cases hS : p.fSpecialty ≠ ""
    · rw [if_pos hS]
      exact specialtyStage_nil _ _ h
    · rw [if_neg hS]
      exact h
  have h2 : (if p.fLanguages ≠ "" then
      languageStage p.fLanguages (if p.fSpecialty ≠ "" then specialtyStage p.fSpecialty df else df)
      else (if p.fSpecialty ≠ "" then specialtyStage p.fSpecialty df else df)).rows = [] := by
    by_cases hL : p.fLanguages ≠ ""
    · rw [if_pos hL]
      exact languageStage_nil _ _ h1
    · rw [if_neg hL]
      exact h1
  by_cases hA : p.fArea ≠ ""
  · rw [if_pos hA]
    exact locationStage_nil _ _ _ h2
  · rw [if_neg hA]
    exact h2

/-- The specialty stage's output facts (relative to its input's columns). -/
theorem specialtyStage_inv (f : String) (df : DF) :
    (pedCase (applyCorrection f) = true →
      (∀ r ∈ (specialtyStage f df).rows, pedP df.cols r = true) ∨
      ((∀ r ∈ df.rows, pedP df.cols r = false) ∧
       ∀ r ∈ (specialtyStage f df).rows, threeP df.cols (applyCorrection f) r = true)) ∧
    (pedCase (applyCorrection f) = false →
      ∀ r ∈ (specialtyStage f df).rows, threeP df.cols (applyCorrection f) r = true) := by
  rw [specialtyStage_eq]
  constructor
  · intro hp
    rw [if_pos hp]
    by_cases he : (df.rows.filter (pedP df.cols)).isEmpty
    · right
      constructor
      · intro r hr
        have h2 := List.filter_eq_nil_iff.mp (List.isEmpty_iff.mp he) r hr
        simpa using h2
      · rw [if_pos he]
        intro r hr
        exact (List.mem_filter.mp hr).2
    · left
      rw [if_neg he]
      intro r hr
      exact (List.mem_filter.mp hr).2
  · intro hp
    rw [if_neg (by rw [hp]; exact Bool.false_ne_true)]
    intro r hr
    exact (List.mem_filter.mp hr).2

/-- The specialty stage is the identity on a dataset already saturated by
    its own invariant. -/
theorem specialtyStage_id (f : String) (d : DF)
    (hped : pedCase (applyCorrection f) = true →
      (∀ r ∈ d.rows, pedP d.cols r = true) ∨
      ((∀ r ∈ d.rows, pedP d.cols r = false) ∧
       ∀ r ∈ d.rows, threeP d.cols (applyCorrection f) r = true))
    (hnon : pedCase (applyCorrection f) = false →
      ∀ r ∈ d.rows, threeP d.cols (applyCorrection f) r = true) :
    specialtyStage f d = d := by
  obtain ⟨cols, rows⟩ := d
  dsimp only at hped hnon
  rw [specialtyStage_eq]
  dsimp only
  by_cases hp : pedCase (applyCorrection f) = true
  · rw [if_pos hp]
    rcases hped hp with h1 | ⟨h2, h3⟩
    · rw [List.filter_eq_self.mpr h1]
      by_cases he : rows.isEmpty
      · rw [if_pos he, List.isEmpty_iff.mp he, List.filter_nil]
      · rw [if_neg he]
    · rw [show rows.filter (pedP cols) = [] from List.filter_eq_nil_iff.mpr
        (fun r hr => by simp [h2 r hr])]
      rw [show ([] : List Row).isEmpty = true from rfl, if_pos rfl]
      rw [List.filter_eq_self.mpr h3]
  · rw [if_neg hp]
    rw [List.filter_eq_self.mpr (hnon (Bool.not_eq_true _ ▸ (by simpa using hp)))]

theorem languageStage_inv (lf : String) (df : DF) :
    ∀ r ∈ (languageStage lf df).rows, "Languages" ∈ df.cols →
      icontains (r.getD "Languages") (langNormalize lf) = true := by
  intro r hr hmem
  unfold languageStage at hr
  rw [if_pos hmem] at hr
  exact (List.mem_filter.mp hr).2

theorem languageStage_id (lf : String) (d : DF)
    (h : ∀ r ∈ d.rows, "Languages" ∈ d.cols →
      icontains (r.getD "Languages") (langNormalize lf) = true) :
    languageStage lf d = d := by
  obtain ⟨cols, rows⟩ := d
  dsimp only at h
  unfold languageStage
  dsimp only
  by_cases hmem : "Languages" ∈ cols
  · rw [if_pos hmem, List.filter_eq_self.mpr (fun r hr => h r hr hmem)]
  · rw [if_neg hmem]

theorem doctorLocationStage_idem (loc : String) (d : DF) :
    doctorLocationStage loc (doctorLocationStage loc d) = doctorLocationStage loc d := by
  obtain ⟨cols, rows⟩ := d
  unfold doctorLocationStage
  dsimp only
  by_cases hm : (if "Area" ∈ cols then "Area" else "Address") ∈ cols
  · rw [if_pos hm]
    dsimp only
    rw [if_pos hm]
    rw [List.filter_eq_self.mpr (fun r hr => (List.mem_filter.mp hr).2)]
  · rw [if_neg hm]
    dsimp only
    rw [if_neg hm]

theorem filterMap_eq_self_of (f : Row → Option Row) (l : List Row)
    (h : ∀ r ∈ l, f r = some r) : l.filterMap f = l := by
  induction l with
  | nil => rfl
  | cons x xs ih =>
    rw [List.filterMap_cons]
    rw [h x (List.mem_cons_self _ _)]
    rw [ih (fun r hr => h r (List.mem_cons_of_mem _ hr))]

theorem postalStage_rows_facts (q : Nat) (d : DF) :
    (∀ r ∈ (postalStage q d).rows, ∃ c,
      extractPostal (r.getD "Address") = some c ∧
      r.dist = some (calculate_postal_distance q c)) ∧
    (postalStage q d).rows.Pairwise (fun a b => distLe a b = true) ∧
    (postalStage q d).rows.length ≤ 20 := by
  unfold postalStage
  by_cases he : (postalCandidates q d.rows).isEmpty
  · rw [if_pos he]
    exact ⟨fun r hr => absurd hr (List.not_mem_nil r), List.Pairwise.nil, by simp⟩
  · rw [if_neg he]
    dsimp only
    refine ⟨?_, ?_, ?_⟩
    · intro r hr
      have hr2 : r ∈ postalCandidates q d.rows := by
        exact List.mem_mergeSort.mp (List.take_subset _ _ hr)
      obtain ⟨r0, hr0, hm⟩ := List.mem_filterMap.mp hr2
      obtain ⟨c, hc, heq⟩ := Option.map_eq_some'.mp hm
      refine ⟨c, ?_, ?_⟩
      · rw [show r.getD "Address" = r0.getD "Address" from getD_cells r r0 (by rw [← heq]; rfl) _]
        exact hc
      · rw [← heq]
        rfl
    · exact List.Pairwise.sublist (List.take_sublist _ _)
        (List.sorted_mergeSort distLe_trans distLe_total _)
    · rw [List.length_take]
      exact Nat.min_le_left 20 _

theorem postalStage_cols_hasDist (q : Nat) (d : DF)
    (h : ¬ (postalCandidates q d.rows).isEmpty = true) :
    "_distance" ∈ (postalStage q d).cols := by
  unfold postalStage
  rw [if_neg h]
  dsimp only
  by_cases hd : "_distance" ∈ d.cols
  · rw [if_pos hd]
    exact hd
  · rw [if_neg hd]
    exact List.mem_append_right _ (List.mem_singleton.mpr rfl)

theorem postalStage_idem (q : Nat) (d : DF) :
    postalStage q (postalStage q d) = postalStage q d := by
  by_cases he : (postalCandidates q d.rows).isEmpty
  · have h1 : postalStage q d = ⟨[], []⟩ := by
      unfold postalStage
      rw [if_pos he]
    rw [h1]
    rfl
  · obtain ⟨hspec, hsorted, hlen⟩ := postalStage_rows_facts q d
    have hc2 : postalCandidates q (postalStage q d).rows = (postalStage q d).rows := by
      apply filterMap_eq_self_of
      intro r hr
      obtain ⟨c, hc, hd⟩ := hspec r hr
      rw [hc]
      have hrw : r.withDist (calculate_postal_distance q c) = r := by
        obtain ⟨cells, dist⟩ := r
        dsimp only at hd
        unfold Row.withDist
        rw [← hd]
      rw [show (some c).map (fun c2 => r.withDist (calculate_postal_distance q c2))
          = some (r.withDist (calculate_postal_distance q c)) from rfl, hrw]
    have hne : ¬ (postalCandidates q (postalStage q d).rows).isEmpty = true := by
      rw [hc2]
      intro hc
      have : (postalStage q d).rows = [] := List.isEmpty_iff.mp hc
      unfold postalStage at this
      rw [if_neg he] at this
      dsimp only at this
      have hlen2 := congrArg List.length this
      rw [List.length_take, List.length_mergeSort] at hlen2
      rcases Nat.min_eq_zero_iff.mp hlen2 with h20 | h0
      · omega
      · exact he (List.isEmpty_iff.mpr (List.length_eq_zero.mp h0))
    have hstep : ∀ P : DF, postalCandidates q P.rows = P.rows →
        ¬ (postalCandidates q P.rows).isEmpty = true →
        postalStage q P = ⟨if "_distance" ∈ P.cols then P.cols else P.cols ++ ["_distance"],
          ((P.rows).mergeSort distLe).take 20⟩ := by
      intro P hP hPne
      unfold postalStage
      rw [if_neg hPne]
      rw [hP]
    rw [hstep (postalStage q d) hc2 hne, List.mergeSort_of_sorted hsorted,
      List.take_of_length_le hlen, if_pos (postalStage_cols_hasDist q d he)]

theorem areaNameClinicStage_idem (loc : String) (d : DF) :
    areaNameClinicStage loc (areaNameClinicStage loc d) = areaNameClinicStage loc d := by
  by_cases hdir : d.rows.any (directP d.cols loc) = true
  · have h1 : areaNameClinicStage loc d = ⟨d.cols, d.rows.filter (directP d.cols loc)⟩ := by
      rw [areaNameClinicStage_eq, if_pos hdir]
    rw [h1, areaNameClinicStage_eq]
    dsimp only
    have hdir2 : (d.rows.filter (directP d.cols loc)).any (directP d.cols loc) = true := by
      obtain ⟨r, hr, hp⟩ := List.any_eq_true.mp hdir
      exact List.any_eq_true.mpr ⟨r, List.mem_filter.mpr ⟨hr, hp⟩, hp⟩
    rw [if_pos hdir2, List.filter_eq_self.mpr (fun r hr => (List.mem_filter.mp hr).2)]
  · have hfalse : d.rows.any (directP d.cols loc) = false := by
      cases hx : d.rows.any (directP d.cols loc)
      · rfl
      · exact absurd hx hdir
    cases hf : nearby_areas.find? (fun p => p.1 == pyLower loc) with
    | none =>
      have h1 : areaNameClinicStage loc d = ⟨d.cols, d.rows.filter (directP d.cols loc)⟩ := by
        rw [areaNameClinicStage_eq, if_neg hdir, hf]
      have hnil : d.rows.filter (directP d.cols loc) = [] := by
        apply List.filter_eq_nil_iff.mpr
        intro r hr
        simp [List.any_eq_false.mp hfalse r hr]
      rw [h1, hnil, areaNameClinicStage_eq]
      dsimp only
      rw [if_neg (by simp), hf]
      dsimp only
      rw [List.filter_nil]
    | some p =>
      have h1 : areaNameClinicStage loc d = ⟨d.cols, d.rows.filter (adjP d.cols p.2 loc)⟩ := by
        rw [areaNameClinicStage_eq, if_neg hdir, hf]
      rw [h1, areaNameClinicStage_eq]
      dsimp only
      have hdir2 : ¬ (d.rows.filter (adjP d.cols p.2 loc)).any (directP d.cols loc) = true := by
        intro hx
        obtain ⟨r, hr, hp⟩ := List.any_eq_true.mp hx
        have hrin := (List.mem_filter.mp hr).1
        have := List.any_eq_false.mp hfalse r hrin
        simp [this] at hp
      rw [if_neg hdir2, hf]
      dsimp only
      rw [List.filter_eq_self.mpr (fun r hr => (List.mem_filter.mp hr).2)]

theorem locationStage_idem (loc : String) (intent : Intent) (d : DF) :
    locationStage loc intent (locationStage loc intent d) = locationStage loc intent d := by
  cases intent with
  | find_doctor => exact doctorLocationStage_idem loc d
  | find_clinic =>
    have hET : ∀ X : DF, locationStage loc Intent.find_clinic X
        = (if (pyIsDigitStr loc && loc.length == 6) = true
           then postalStage (digitsToNat loc.data) X else areaNameClinicStage loc X) :=
      fun X => rfl
    by_cases hp : (pyIsDigitStr loc && loc.length == 6) = true
    · rw [hET, hET, if_pos hp, if_pos hp]
      exact postalStage_idem _ d
    · rw [hET, hET, if_neg hp, if_neg hp]
      exact areaNameClinicStage_idem loc d

theorem locationStage_cellsFrom (loc : String) (intent : Intent) (d : DF) :
    CellsFrom (locationStage loc intent d).rows d.rows := by
  cases intent with
  | find_doctor =>
    show CellsFrom (doctorLocationStage loc d).rows d.rows
    unfold doctorLocationStage
    by_cases hm : (if "Area" ∈ d.cols then "Area" else "Address") ∈ d.cols
    · rw [if_pos hm]
      exact cellsFrom_filter _ _
    · rw [if_neg hm]
      exact cellsFrom_refl _
  | find_clinic =>
    have hET : locationStage loc Intent.find_clinic d
        = (if (pyIsDigitStr loc && loc.length == 6) = true
           then postalStage (digitsToNat loc.data) d else areaNameClinicStage loc d) := rfl
    by_cases hp : (pyIsDigitStr loc && loc.length == 6) = true
    · show CellsFrom (locationStage loc Intent.find_clinic d).rows d.rows
      rw [hET, if_pos hp]
      unfold postalStage
      by_cases he : (postalCandidates (digitsToNat loc.data) d.rows).isEmpty
      · rw [if_pos he]
        intro r hr
        cases hr
      · rw [if_neg he]
        dsimp only
        intro r hr
        have hr2 : r ∈ postalCandidates (digitsToNat loc.data) d.rows := by
          exact List.mem_mergeSort.mp (List.take_subset _ _ hr)
        obtain ⟨r0, hr0, hm⟩ := List.mem_filterMap.mp hr2
        obtain ⟨c, hc, heq⟩ := Option.map_eq_some'.mp hm
        exact ⟨r0, hr0, by rw [← heq]; rfl⟩
    · show CellsFrom (locationStage loc Intent.find_clinic d).rows d.rows
      rw [hET, if_neg hp, areaNameClinicStage_eq]
      by_cases hdir : d.rows.any (directP d.cols loc) = true
      · rw [if_pos hdir]
        exact cellsFrom_filter _ _
      · rw [if_neg hdir]
        cases nearby_areas.find? (fun p => p.1 == pyLower loc) with
        | none => exact cellsFrom_filter _ _
        | some p => exact cellsFrom_filter _ _

theorem locationStage_compat (loc : String) (intent : Intent) (d : DF)
    (h : (locationStage loc intent d).rows ≠ []) :
    ColsCompat d.cols (locationStage loc intent d).cols := by
  cases intent with
  | find_doctor =>
    show ColsCompat d.cols (doctorLocationStage loc d).cols
    unfold doctorLocationStage
    by_cases hm : (if "Area" ∈ d.cols then "Area" else "Address") ∈ d.cols
    · rw [if_pos hm]
      exact colsCompat_refl _
    · rw [if_neg hm]
      exact colsCompat_refl _
  | find_clinic =>
    by_cases hp : (pyIsDigitStr loc && loc.length == 6) = true
    · have hET : locationStage loc Intent.find_clinic d
          = postalStage (digitsToNat loc.data) d := by
        show (if (pyIsDigitStr loc && loc.length == 6) = true then _ else _) = _
        rw [if_pos hp]
      rw [hET] at h ⊢
      unfold postalStage at h ⊢
      by_cases he : (postalCandidates (digitsToNat loc.data) d.rows).isEmpty
      · rw [if_pos he] at h
        exact absurd rfl h
      · rw [if_neg he]
        exact colsCompat_addDist d.cols
    · have hET : locationStage loc Intent.find_clinic d = areaNameClinicStage loc d := by
        show (if (pyIsDigitStr loc && loc.length == 6) = true then _ else _) = _
        rw [if_neg hp]
      rw [hET, areaNameClinicStage_eq]
      by_cases hdir : d.rows.any (directP d.cols loc) = true
      · rw [if_pos hdir]
        exact colsCompat_refl _
      · rw [if_neg hdir]
        cases nearby_areas.find? (fun p => p.1 == pyLower loc) with
        | none => exact colsCompat_refl _
        | some p => exact colsCompat_refl _

/-- C8: the structured filter pipeline is idempotent: for every dataset and
    every fixed plan (specialty, language, location filter values and
    intent), applying the full pipeline to its own output yields exactly the
    same row set and order as applying it once. -/
theorem filter_pipeline_idempotent (p : Plan) (df : DF) :
    (filterPipeline p (filterPipeline p df)).rows = (filterPipeline p df).rows := by
  by_cases hO : (filterPipeline p df).rows = []
  · rw [filterPipeline_nil p _ hO, hO]
  · have hpipe : ∀ X : DF, filterPipeline p X =
        (if p.fArea ≠ "" then
          locationStage p.fArea p.intent
            (if p.fLanguages ≠ "" then
              languageStage p.fLanguages
                (if p.fSpecialty ≠ "" then specialtyStage p.fSpecialty X else X)
             else (if p.fSpecialty ≠ "" then specialtyStage p.fSpecialty X else X))
         else
          (if p.fLanguages ≠ "" then
            languageStage p.fLanguages
              (if p.fSpecialty ≠ "" then specialtyStage p.fSpecialty X else X)
           else (if p.fSpecialty ≠ "" then specialtyStage p.fSpecialty X else X))) :=
      fun X => rfl
    have hd1cols : (if p.fSpecialty ≠ "" then specialtyStage p.fSpecialty df else df).cols
        = df.cols := by
      by_cases hS : p.fSpecialty ≠ ""
      · rw [if_pos hS]
        exact specialtyStage_cols _ _
      · rw [if_neg hS]
    have hd2cols : (if p.fLanguages ≠ "" then
        languageStage p.fLanguages
          (if p.fSpecialty ≠ "" then specialtyStage p.fSpecialty df else df)
        else (if p.fSpecialty ≠ "" then specialtyStage p.fSpecialty df else df)).cols
        = df.cols := by
      by_cases hL : p.fLanguages ≠ ""
      · rw [if_pos hL, languageStage_cols, hd1cols]
      · rw [if_neg hL, hd1cols]
    have hcompat : ColsCompat df.cols (filterPipeline p df).cols := by
      rw [hpipe df]
      by_cases hA : p.fArea ≠ ""
      · rw [if_pos hA]
        rw [← hd2cols]
        apply locationStage_compat
        rw [hpipe df, if_pos hA] at hO
        exact hO
      · rw [if_neg hA, hd2cols]
        exact colsCompat_refl _
    have hCF1 : CellsFrom
        (if p.fSpecialty ≠ "" then specialtyStage p.fSpecialty df else df).rows df.rows := by
      by_cases hS : p.fSpecialty ≠ ""
      · rw [if_pos hS]
        exact specialtyStage_cellsFrom _ _
      · rw [if_neg hS]
        exact cellsFrom_refl _
    have hCF2 : CellsFrom (if p.fLanguages ≠ "" then
        languageStage p.fLanguages
          (if p.fSpecialty ≠ "" then specialtyStage p.fSpecialty df else df)
        else (if p.fSpecialty ≠ "" then specialtyStage p.fSpecialty df else df)).rows
        (if p.fSpecialty ≠ "" then specialtyStage p.fSpecialty df else df).rows := by
      by_cases hL : p.fLanguages ≠ ""
      · rw [if_pos hL]
        exact languageStage_cellsFrom _ _
      · rw [if_neg hL]
        exact cellsFrom_refl _
    have hCF3 : CellsFrom (filterPipeline p df).rows
        (if p.fLanguages ≠ "" then
          languageStage p.fLanguages
            (if p.fSpecialty ≠ "" then specialtyStage p.fSpecialty df else df)
          else (if p.fSpecialty ≠ "" then specialtyStage p.fSpecialty df else df)).rows := by
      rw [hpipe df]
      by_cases hA : p.fArea ≠ ""
      · rw [if_pos hA]
        exact locationStage_cellsFrom _ _ _
      · rw [if_neg hA]
        exact cellsFrom_refl _
    have hCF23 : CellsFrom (filterPipeline p df).rows
        (if p.fSpecialty ≠ "" then specialtyStage p.fSpecialty df else df).rows :=
      cellsFrom_trans _ _ _ hCF2 hCF3
    have hCFO : CellsFrom (filterPipeline p df).rows df.rows :=
      cellsFrom_trans _ _ _ hCF1 hCF23
    have hSid : (if p.fSpecialty ≠ "" then
        specialtyStage p.fSpecialty (filterPipeline p df) else (filterPipeline p df))
        = filterPipeline p df := by
      by_cases hS : p.fSpecialty ≠ ""
      · rw [if_pos hS]
        obtain ⟨hinvp, hinvn⟩ := specialtyStage_inv p.fSpecialty df
        rw [show specialtyStage p.fSpecialty df
            = (if p.fSpecialty ≠ "" then specialtyStage p.fSpecialty df else df)
          from (if_pos hS).symm] at hinvp hinvn
        apply specialtyStage_id
        · intro hp
          rcases hinvp hp with h1 | ⟨h2, h3⟩
          · left
            intro r hr
            obtain ⟨r1, hr1, hcells⟩ := hCF23 r hr
            rw [← pedP_compat df.cols _ hcompat r, pedP_cells df.cols r r1 hcells]
            exact h1 r1 hr1
          · right
            constructor
            · intro r hr
              obtain ⟨r0, hr0, hcells⟩ := hCFO r hr
              rw [← pedP_compat df.cols _ hcompat r, pedP_cells df.cols r r0 hcells]
              exact h2 r0 hr0
            · intro r hr
              obtain ⟨r1, hr1, hcells⟩ := hCF23 r hr
              rw [← threeP_compat df.cols _ hcompat _ r,
                threeP_cells df.cols _ r r1 hcells]
              exact h3 r1 hr1
        · intro hp
          intro r hr
          obtain ⟨r1, hr1, hcells⟩ := hCF23 r hr
          rw [← threeP_compat df.cols _ hcompat _ r, threeP_cells df.cols _ r r1 hcells]
          exact hinvn hp r1 hr1
      · rw [if_neg hS]
    have hGid : (if p.fLanguages ≠ "" then
        languageStage p.fLanguages (filterPipeline p df) else (filterPipeline p df))
        = filterPipeline p df := by
      by_cases hL : p.fLanguages ≠ ""
      · rw [if_pos hL]
        have hinv := languageStage_inv p.fLanguages
          (if p.fSpecialty ≠ "" then specialtyStage p.fSpecialty df else df)
        rw [show languageStage p.fLanguages
              (if p.fSpecialty ≠ "" then specialtyStage p.fSpecialty df else df)
            = (if p.fLanguages ≠ "" then languageStage p.fLanguages
                (if p.fSpecialty ≠ "" then specialtyStage p.fSpecialty df else df)
               else (if p.fSpecialty ≠ "" then specialtyStage p.fSpecialty df else df))
          from (if_pos hL).symm] at hinv
        apply languageStage_id
        intro r hr hmem
        obtain ⟨r2, hr2, hcells⟩ := hCF3 r hr
        rw [getD_cells r r2 hcells]
        apply hinv r2 hr2
        rw [hd1cols]
        exact (hcompat "Languages" (by decide)).mpr hmem
      · rw [if_neg hL]
    have hLid : (if p.fArea ≠ "" then
        locationStage p.fArea p.intent (filterPipeline p df) else (filterPipeline p df))
        = filterPipeline p df := by
      by_cases hA : p.fArea ≠ ""
      · rw [if_pos hA]
        rw [hpipe df, if_pos hA]
        exact locationStage_idem _ _ _
      · rw [if_neg hA]
    rw [hpipe (filterPipeline p df), hSid, hGid, hLid]
